import Mathlib

/-! # grofer: the overall dashboard loop (src/display/general/overallGraphs.go)

A shallow embedding of `RenderCharts` and of its closures `pause` and `updateUI`.

Conventions of the embedding:

* Go `float64` values are modelled by exact rationals (no rounding, no NaN, no
  infinities); `int(x)` on a float is truncation toward zero.
* Go `int` values are modelled by `Int`; `/` on ints is truncated division.
  Terminal dimensions are small, so 64-bit wrap-around is not modelled.
* A run-time panic (index out of range, slice bounds out of range, integer
  division by zero) is an explicit outcome that carries the state reached when
  the panic happened.
* The `select` loop is modelled by the list of events in the order in which the
  loop receives them.  An event that makes the loop call `updateUI` carries the
  terminal dimensions that `ui.TerminalDimensions()` reports during that call.
* Calls on the toolkit, on `endChannel` and on `wg` are recorded in an effect log.
-/

namespace Grofer

/-! ## Data model -/

/-- The four integer arguments of a `SetRect(x1, y1, x2, y2)` call. -/
structure Rect where
  x1 : Int
  y1 : Int
  x2 : Int
  y2 : Int
deriving DecidableEq, Repr

/-- Modelled from the spec: the gauge widget type of `myPage.CPUCharts[i]` is declared
outside this file; the fields are the ones `RenderCharts` touches (`Title`, `Percent`)
plus the arguments of the last `SetRect` call. -/
structure Gauge where
  Title : String
  Percent : Int
  rect : Rect
deriving DecidableEq, Repr

/-- Modelled from the spec: the bar chart type of `myPage.MemoryChart` is declared outside
this file; the fields are the ones `RenderCharts` touches. -/
structure BarChart where
  Data : List ℚ
  BarGap : Int
  BarWidth : Int
deriving DecidableEq, Repr

/-- Modelled from the spec: the page type returned by `NewPage` is declared outside this
file; it owns one gauge per core, the memory bar chart, the disk table (`Rows`), the
network legend (`Text`), the network chart (`Data`) and the grid (its rectangle). -/
structure Page where
  CPUCharts : List Gauge
  MemoryChart : BarChart
  DiskRows : List (List String)
  NetParaText : String
  NetworkChartData : List (List ℚ)
  GridRect : Rect
deriving DecidableEq, Repr

/-- Modelled from the spec: `utils.DataStats` is declared outside this file; a metrics
message is tagged by `FieldSet` and carries one payload field per kind.  `NetStats` is
the sequence of per-interface records, entry 0 is bytesSent and entry 1 is bytesRecv. -/
structure DataStats where
  FieldSet : String
  CpuStats : List ℚ
  MemStats : List ℚ
  DiskStats : List (List String)
  NetStats : List (List ℚ)
deriving DecidableEq, Repr

/-- The widgets that `updateUI` places and renders. -/
inductive Widget where
  | cpu (i : Nat)
  | grid
deriving DecidableEq, Repr

/-- Calls with an effect outside the loop state, in the order they are issued. -/
inductive Effect where
  | clear
  | setRect (w : Widget) (r : Rect)
  | render (w : Widget)
  | sendKill
  | wgDone
  | uiClose
deriving DecidableEq, Repr

/-- What the `select` statement of the loop can receive. -/
inductive Event where
  | uiEvent (ID : String) (w h : Int)
  | data (d : DataStats)
  | tick (w h : Int)
deriving DecidableEq, Repr

/-- The package variables `isCPUSet` and `run`, the locals of `RenderCharts`, and the
effect log. -/
structure State where
  isCPUSet : Bool
  run : Bool
  numCores : Nat
  myPage : Page
  totalBytesRecv : ℚ
  totalBytesSent : ℚ
  ipData : List ℚ
  opData : List ℚ
  effects : List Effect
deriving DecidableEq, Repr

/-- The result of running code on a state: the loop goes on to its next `select`
(`next`), `RenderCharts` has returned (`returned`), a run-time panic happened
(`panicked`), or `log.Fatalf` ended the process (`fatal`). -/
inductive Outcome where
  | next (s : State)
  | returned (s : State)
  | panicked (s : State)
  | fatal (s : State)
deriving DecidableEq, Repr

/-- The state an outcome carries. -/
def Outcome.state : Outcome → State
  | .next s => s
  | .returned s => s
  | .panicked s => s
  | .fatal s => s

/-- Append one call to the effect log. -/
def State.emit (s : State) (e : Effect) : State :=
  { s with effects := s.effects ++ [e] }

/-! ## Numeric helpers -/

/-- Go `int(x)` for a float `x`: truncation toward zero. -/
def truncToInt (q : ℚ) : Int :=
  Int.tdiv q.num q.den

/-- Round a non-negative rational to the nearest natural number, ties to even. -/
def roundHalfEven (q : ℚ) : Nat :=
  let n := q.num.toNat
  let f := n / q.den
  let r := 2 * (n % q.den)
  if r < q.den then f
  else if q.den < r then f + 1
  else if f % 2 = 0 then f else f + 1

/-- Pad a string on the left with spaces up to the given width. -/
def padLeft (width : Nat) (t : String) : String :=
  String.mk (List.replicate (width - t.length) ' ') ++ t

/-- The verb `%5.1f` of `fmt.Sprintf`: one digit after the point, width at least 5. -/
def fmt51 (q : ℚ) : String :=
  let r := roundHalfEven (|q| * 10)
  let body := toString (r / 10) ++ "." ++ toString (r % 10)
  padLeft 5 (if q < 0 then "-" ++ body else body)

/-! ## The closures `pause` and `updateUI` -/

/-- The closure `pause`: `run = !run`. -/
def pause (s : State) : State :=
  { s with run := !s.run }

/-- Replace the gauge at index `i`. -/
def State.setGauge (s : State) (i : Nat) (g : Gauge) : State :=
  { s with myPage := { s.myPage with CPUCharts := s.myPage.CPUCharts.set i g } }

/-- The loop `for i := 0; i < numCores; i++` of `updateUI`, over the remaining indices:
set the rectangle of gauge `i` and render it; an index outside `CPUCharts` panics. -/
def layoutCPU (w height : Int) : List Nat → State → Outcome
  | [], s => .next s
  | i :: rest, s =>
    match s.myPage.CPUCharts[i]? with
    | none => .panicked s
    | some g =>
      let r : Rect := ⟨0, i * height, Int.tdiv w 2, (i + 1) * height⟩
      layoutCPU w height rest
        (((s.setGauge i { g with rect := r }).emit (.setRect (.cpu i) r)).emit (.render (.cpu i)))

/-- The block `if isCPUSet { for i := 0; i < numCores; i++ { ... } }` of `updateUI`. -/
def layoutGauges (s : State) (w height : Int) : Outcome :=
  if s.isCPUSet then layoutCPU w height (List.range s.numCores) s else .next s

/-- The assignment `myPage.MemoryChart.BarGap = ((w / 2) - (4 * BarWidth)) / 4`. -/
def setBarGap (s : State) (w : Int) : State :=
  { s with myPage := { s.myPage with MemoryChart := { s.myPage.MemoryChart with
      BarGap := Int.tdiv (Int.tdiv w 2 - 4 * s.myPage.MemoryChart.BarWidth) 4 } } }

/-- The calls `myPage.Grid.SetRect(w/2, 0, w, h-heightOffset)` and `ui.Render(myPage.Grid)`. -/
def layoutGrid (s : State) (w h heightOffset : Int) : State :=
  let r : Rect := ⟨Int.tdiv w 2, 0, w, h - heightOffset⟩
  (({ s with myPage := { s.myPage with GridRect := r } }.emit (.setRect .grid r)).emit
    (.render .grid))

/-- The closure `updateUI`, with `(w, h)` the terminal dimensions it reads; the division
`h / numCores` panics when `numCores` is zero. -/
def updateUI (s : State) (w h : Int) : Outcome :=
  let s1 := s.emit .clear
  if s1.numCores = 0 then .panicked s1
  else
    let height := Int.tdiv h s1.numCores
    let heightOffset := h - height * s1.numCores
    match layoutGauges (setBarGap s1 w) w height with
    | .next s3 => .next (layoutGrid s3 w h heightOffset)
    | o => o

/-! ## The metrics handlers -/

/-- The `"CPU"` case: `for index, rate := range data.CpuStats`, from `index` on. -/
def updateCPU : Nat → List ℚ → State → Outcome
  | _, [], s => .next s
  | index, rate :: rest, s =>
    match s.myPage.CPUCharts[index]? with
    | none => .panicked s
    | some g =>
      updateCPU (index + 1) rest
        (s.setGauge index { g with Title := " CPU " ++ toString index ++ " ",
                                   Percent := truncToInt rate })

/-- The loop `for _, netInterface := range data.NetStats` with its accumulators
`(curBytesRecv, curBytesSent)`; a record shorter than two entries panics (`none`). -/
def sumNet : List (List ℚ) → ℚ × ℚ → Option (ℚ × ℚ)
  | [], acc => some acc
  | netInterface :: rest, (curBytesRecv, curBytesSent) =>
    match netInterface[1]?, netInterface[0]? with
    | some r, some t => sumNet rest (curBytesRecv + r, curBytesSent + t)
    | _, _ => none

/-- The clamp `if int(x) < 0 { x = 0 }`. -/
def clampNeg (x : ℚ) : ℚ :=
  if truncToInt x < 0 then 0 else x

/-- The sample `(recentBytesRecv, recentBytesSent)` computed inside
`if totalBytesRecv != 0`, from the current sums and the stored totals. -/
def recentBytes (s : State) (cur : ℚ × ℚ) : ℚ × ℚ :=
  (clampNeg (cur.1 - s.totalBytesRecv), clampNeg (cur.2 - s.totalBytesSent))

/-- The legend `titles[0] + titles[1]`. -/
def netLegend (totalBytesRecv totalBytesSent : ℚ) : String :=
  ("[Total RX](fg:red): " ++ fmt51 (totalBytesRecv / 1024) ++ " " ++ "mB" ++ "\n")
    ++ ("\n[Total TX](fg:green): " ++ fmt51 (totalBytesSent / 1024) ++ " " ++ "mB")

/-- The tail of the `"NET"` case, after the histories were (or were not) shifted: store
the totals, set the legend and hand both histories to the chart. -/
def finishNet (s : State) (cur : ℚ × ℚ) : State :=
  { s with
    totalBytesRecv := cur.1
    totalBytesSent := cur.2
    myPage := { s.myPage with
      NetParaText := netLegend cur.1 cur.2
      NetworkChartData := [s.ipData, s.opData] } }

/-- The `"NET"` case. -/
def updateNet (s : State) (stats : List (List ℚ)) : Outcome :=
  match sumNet stats (0, 0) with
  | none => .panicked s
  | some cur =>
    if s.totalBytesRecv ≠ 0 then
      let recent := recentBytes s cur
      match s.ipData with
      | [] => .panicked s
      | _ :: ip =>
        match s.opData with
        | [] => .panicked { s with ipData := ip }
        | _ :: op =>
          .next (finishNet { s with ipData := ip ++ [recent.1], opData := op ++ [recent.2] } cur)
    else .next (finishNet s cur)

/-- The case `data := <-dataChannel`. -/
def handleData (s : State) (d : DataStats) : Outcome :=
  if s.run then
    if d.FieldSet = "CPU" then updateCPU 0 d.CpuStats s
    else if d.FieldSet = "MEM" then
      .next { s with myPage :=
        { s.myPage with MemoryChart := { s.myPage.MemoryChart with Data := d.MemStats } } }
    else if d.FieldSet = "DISK" then
      .next { s with myPage := { s.myPage with DiskRows := d.DiskStats } }
    else if d.FieldSet = "NET" then updateNet s d.NetStats
    else .next s
  else .next s

/-- The case `e := <-uiEvents`. -/
def handleUI (s : State) (ID : String) (w h : Int) : Outcome :=
  if ID = "q" ∨ ID = "<C-c>" then .returned ((s.emit .sendKill).emit .wgDone)
  else if ID = "<Resize>" then updateUI s w h
  else if ID = "s" then .next (pause s)
  else .next s

/-- One iteration of the `for { select { ... } }` loop on the event received. -/
def step (s : State) : Event → Outcome
  | .uiEvent ID w h => handleUI s ID w h
  | .data d => handleData s d
  | .tick w h => updateUI s w h

/-- The loop on a finite stream of events: it stops at a return or a panic and leaves
the rest of the stream unprocessed. -/
def eventLoop (s : State) : List Event → Outcome
  | [] => .next s
  | e :: rest =>
    match step s e with
    | .next s1 => eventLoop s1 rest
    | o => o

/-- The locals and package variables when the loop is set up: totals zero, both
histories forty zeros, `run` and `isCPUSet` true. -/
def initState (numCores : Nat) (myPage : Page) : State :=
  { isCPUSet := true
    run := true
    numCores := numCores
    myPage := myPage
    totalBytesRecv := 0
    totalBytesSent := 0
    ipData := List.replicate 40 0
    opData := List.replicate 40 0
    effects := [] }

/-- The deferred `ui.Close()`, run when `RenderCharts` returns or panics. -/
def deferClose : Outcome → Outcome
  | .next s => .next s
  | .returned s => .returned (s.emit .uiClose)
  | .panicked s => .panicked (s.emit .uiClose)
  | .fatal s => .fatal s

/-- The function `RenderCharts`: `initOk` tells whether `ui.Init()` succeeded, `myPage` is
what `NewPage(numCores)` returned, `(w0, h0)` are the terminal dimensions at the first
`updateUI()`, and `evs` is the stream of events the loop receives. -/
def RenderCharts (initOk : Bool) (numCores : Nat) (myPage : Page) (w0 h0 : Int)
    (evs : List Event) : Outcome :=
  if initOk then
    deferClose
      (match updateUI (initState numCores myPage) w0 h0 with
       | .next s => eventLoop s evs
       | o => o)
  else .fatal (initState numCores myPage)


/-! ## Specification-side definitions -/

/-- The last `n` elements of a list, oldest first. -/
def lastN {α : Type} (n : Nat) (l : List α) : List α :=
  l.drop (l.length - n)

/-- The sample `(received, sent)` that the event makes the `"NET"` case append to the
histories in state `s`, if it makes it append one: a `"NET"` message in running mode
with a non-zero stored `totalBytesRecv` and records the summing loop accepts. -/
def sampleOf (s : State) : Event → Option (ℚ × ℚ)
  | .data d =>
    if s.run = true ∧ d.FieldSet = "NET" ∧ s.totalBytesRecv ≠ 0 then
      (sumNet d.NetStats (0, 0)).map (recentBytes s)
    else none
  | _ => none

/-- The samples `s_1, ..., s_k` appended while the loop processes the stream, in order. -/
def samplesAlong (s : State) : List Event → List (ℚ × ℚ)
  | [] => []
  | e :: rest =>
    match step s e with
    | .next s1 => (sampleOf s e).toList ++ samplesAlong s1 rest
    | _ => []

/-- The samples appended during a run of `RenderCharts`. -/
def samplesOfRun (initOk : Bool) (numCores : Nat) (myPage : Page) (w0 h0 : Int)
    (evs : List Event) : List (ℚ × ℚ) :=
  if initOk then
    match updateUI (initState numCores myPage) w0 h0 with
    | .next s => samplesAlong s evs
    | _ => []
  else []

/-- The received total of a message as the spec words it: the sum over the interface
records of entry 1 (bytesRecv). -/
def recvTotal (stats : List (List ℚ)) : ℚ :=
  (stats.map fun netInterface => netInterface.getD 1 0).sum

/-- The sent total of a message as the spec words it: the sum over the interface
records of entry 0 (bytesSent). -/
def sentTotal (stats : List (List ℚ)) : ℚ :=
  (stats.map fun netInterface => netInterface.getD 0 0).sum

/-! ## Concrete inputs used in the examples -/

/-- A page with a single gauge, as for a one-core machine. -/
def onePage : Page :=
  ⟨[⟨"", 0, ⟨0, 0, 0, 0⟩⟩], ⟨[], 0, 3⟩, [], "", [], ⟨0, 0, 0, 0⟩⟩

/-- A `"NET"` message with the given interface records. -/
def netMsg (stats : List (List ℚ)) : DataStats :=
  ⟨"NET", [], [], [], stats⟩

/-- A stream of 42 identical `"NET"` messages: the first records the totals, each of the
other 41 appends a sample. -/
def fortyTwoNet : List Event :=
  List.replicate 42 (.data (netMsg [[0, 1]]))

/-! ## Specification-side definitions for the layout pass -/

/-- The rectangle of CPU band `i` as the spec words it: columns `[0, w/2)` and rows
`[i * height, (i + 1) * height)`. -/
def bandRect (w height : Int) (i : Nat) : Rect :=
  ⟨0, i * height, w / 2, (i + 1) * height⟩

/-- The rectangle of the right-hand panel as the spec words it: columns `[w/2, w)` and rows
`[0, h - h mod n)`. -/
def panelRect (w h : Int) (n : Nat) : Rect :=
  ⟨w / 2, 0, w, h - h % n⟩

/-- What a layout pass must leave alone: the flags, the core count, the stored totals, both
histories and all widget data (titles and percentages of the gauges, memory data and bar
width, disk rows, legend text, network chart data). -/
structure LayoutFrame (s t : State) : Prop where
  isCPUSet : t.isCPUSet = s.isCPUSet
  run : t.run = s.run
  numCores : t.numCores = s.numCores
  totalBytesRecv : t.totalBytesRecv = s.totalBytesRecv
  totalBytesSent : t.totalBytesSent = s.totalBytesSent
  ipData : t.ipData = s.ipData
  opData : t.opData = s.opData
  gauges : t.myPage.CPUCharts.map (fun g => (g.Title, g.Percent))
    = s.myPage.CPUCharts.map (fun g => (g.Title, g.Percent))
  memData : t.myPage.MemoryChart.Data = s.myPage.MemoryChart.Data
  barWidth : t.myPage.MemoryChart.BarWidth = s.myPage.MemoryChart.BarWidth
  diskRows : t.myPage.DiskRows = s.myPage.DiskRows
  legend : t.myPage.NetParaText = s.myPage.NetParaText
  chartData : t.myPage.NetworkChartData = s.myPage.NetworkChartData

/-- Truncation toward zero as the spec words it: the floor of a non-negative number, the
ceiling of a negative one. -/
def truncTowardZero (q : ℚ) : Int :=
  if 0 ≤ q then ⌊q⌋ else ⌈q⌉

/-- A page with four gauges, as for a four-core machine. -/
def fourPage : Page :=
  ⟨[⟨"", 0, ⟨0, 0, 0, 0⟩⟩, ⟨"", 0, ⟨0, 0, 0, 0⟩⟩, ⟨"", 0, ⟨0, 0, 0, 0⟩⟩, ⟨"", 0, ⟨0, 0, 0, 0⟩⟩],
   ⟨[], 0, 3⟩, [], "", [], ⟨0, 0, 0, 0⟩⟩

/-- A `"CPU"` message with the given per-core rates. -/
def cpuMsg (rates : List ℚ) : DataStats :=
  ⟨"CPU", rates, [], [], []⟩

/-- The arguments of the call `SetRect(0, i*height, w/2, (i+1)*height)` at gauge `i`. -/
def gaugeRect (w height : Int) (i : Nat) : Rect :=
  ⟨0, i * height, Int.tdiv w 2, (i + 1) * height⟩

/-- The calls of the gauge loop of `updateUI` over the indices `l`. -/
def gaugeCalls (w height : Int) (l : List Nat) : List Effect :=
  l.flatMap (fun i => [Effect.setRect (.cpu i) (gaugeRect w height i), Effect.render (.cpu i)])

/-- The widgets rendered by a sequence of calls, in order. -/
def renderCalls (l : List Effect) : List Widget :=
  l.filterMap fun e =>
    match e with
    | .render x => some x
    | _ => none

/-- A running state with stored totals `(10, 10)`, as after an earlier `"NET"` message. -/
def afterFirstNet : State :=
  { initState 1 onePage with totalBytesRecv := 10, totalBytesSent := 10 }

/-! ## Frame lemmas: what the layout pass and the CPU handler leave alone -/

theorem layoutCPU_hist (w height : Int) (l : List Nat) (s : State) :
    (layoutCPU w height l s).state.ipData = s.ipData ∧
    (layoutCPU w height l s).state.opData = s.opData := by
  induction l generalizing s with
  | nil => exact ⟨rfl, rfl⟩
  | cons i rest ih =>
    unfold layoutCPU
    cases hg : s.myPage.CPUCharts[i]? with
    | none => exact ⟨rfl, rfl⟩
    | some g =>
      simp only []
      exact ⟨(ih _).1.trans rfl, (ih _).2.trans rfl⟩

theorem layoutGauges_hist (s : State) (w height : Int) :
    (layoutGauges s w height).state.ipData = s.ipData ∧
    (layoutGauges s w height).state.opData = s.opData := by
  unfold layoutGauges
  split
  · exact layoutCPU_hist w height _ s
  · exact ⟨rfl, rfl⟩

theorem updateUI_hist (s : State) (w h : Int) :
    (updateUI s w h).state.ipData = s.ipData ∧ (updateUI s w h).state.opData = s.opData := by
  unfold updateUI
  simp only []
  split
  · exact ⟨rfl, rfl⟩
  · have hg := layoutGauges_hist (setBarGap (s.emit .clear) w) w
      (Int.tdiv h (s.emit .clear).numCores)
    split
    · rename_i s3 hs3
      rw [hs3] at hg
      exact hg
    · rename_i o _
      cases o <;> exact hg

theorem updateCPU_hist (i : Nat) (rates : List ℚ) (s : State) :
    (updateCPU i rates s).state.ipData = s.ipData ∧
    (updateCPU i rates s).state.opData = s.opData := by
  induction rates generalizing i s with
  | nil => exact ⟨rfl, rfl⟩
  | cons rate rest ih =>
    unfold updateCPU
    cases hg : s.myPage.CPUCharts[i]? with
    | none => exact ⟨rfl, rfl⟩
    | some g =>
      simp only []
      exact ⟨(ih _ _).1.trans rfl, (ih _ _).2.trans rfl⟩


/-! ## The history length invariant -/

theorem updateNet_length (s : State) (stats : List (List ℚ))
    (hi : s.ipData.length = 40) (ho : s.opData.length = 40) :
    (updateNet s stats).state.ipData.length = 40 ∧
    (updateNet s stats).state.opData.length = 40 := by
  unfold updateNet
  cases hsum : sumNet stats (0, 0) with
  | none => exact ⟨hi, ho⟩
  | some cur =>
    simp only []
    split
    · cases hip : s.ipData with
      | nil => rw [hip] at hi; simp at hi
      | cons a ip =>
        cases hop : s.opData with
        | nil => rw [hop] at ho; simp at ho
        | cons b op =>
          rw [hip] at hi
          rw [hop] at ho
          simp only [List.length_cons] at hi ho
          simp [Outcome.state, finishNet]
          omega
    · exact ⟨hi, ho⟩

theorem handleData_length (s : State) (d : DataStats)
    (hi : s.ipData.length = 40) (ho : s.opData.length = 40) :
    (handleData s d).state.ipData.length = 40 ∧ (handleData s d).state.opData.length = 40 := by
  unfold handleData
  split
  · split
    · have h := updateCPU_hist 0 d.CpuStats s
      rw [h.1, h.2]
      exact ⟨hi, ho⟩
    · split
      · exact ⟨hi, ho⟩
      · split
        · exact ⟨hi, ho⟩
        · split
          · exact updateNet_length s d.NetStats hi ho
          · exact ⟨hi, ho⟩
  · exact ⟨hi, ho⟩

theorem handleUI_length (s : State) (ID : String) (w h : Int)
    (hi : s.ipData.length = 40) (ho : s.opData.length = 40) :
    (handleUI s ID w h).state.ipData.length = 40 ∧
    (handleUI s ID w h).state.opData.length = 40 := by
  unfold handleUI
  split
  · exact ⟨hi, ho⟩
  · split
    · have hu := updateUI_hist s w h
      rw [hu.1, hu.2]
      exact ⟨hi, ho⟩
    · split <;> exact ⟨hi, ho⟩

theorem step_length (s : State) (e : Event)
    (hi : s.ipData.length = 40) (ho : s.opData.length = 40) :
    (step s e).state.ipData.length = 40 ∧ (step s e).state.opData.length = 40 := by
  cases e with
  | uiEvent ID w h => exact handleUI_length s ID w h hi ho
  | data d => exact handleData_length s d hi ho
  | tick w h =>
    have hu := updateUI_hist s w h
    show (updateUI s w h).state.ipData.length = 40 ∧ (updateUI s w h).state.opData.length = 40
    rw [hu.1, hu.2]
    exact ⟨hi, ho⟩

theorem eventLoop_length (evs : List Event) (s : State)
    (hi : s.ipData.length = 40) (ho : s.opData.length = 40) :
    (eventLoop s evs).state.ipData.length = 40 ∧
    (eventLoop s evs).state.opData.length = 40 := by
  induction evs generalizing s with
  | nil => exact ⟨hi, ho⟩
  | cons e rest ih =>
    have hs := step_length s e hi ho
    unfold eventLoop
    cases hstep : step s e with
    | next s1 =>
      rw [hstep] at hs
      exact ih s1 hs.1 hs.2
    | returned s1 => rw [hstep] at hs; exact hs
    | panicked s1 => rw [hstep] at hs; exact hs
    | fatal s1 => rw [hstep] at hs; exact hs

theorem deferClose_hist (o : Outcome) :
    (deferClose o).state.ipData = o.state.ipData ∧
    (deferClose o).state.opData = o.state.opData := by
  cases o <;> exact ⟨rfl, rfl⟩

theorem initState_length (numCores : Nat) (myPage : Page) :
    (initState numCores myPage).ipData.length = 40 ∧
    (initState numCores myPage).opData.length = 40 := by
  simp [initState]

theorem RenderCharts_length (initOk : Bool) (numCores : Nat) (myPage : Page) (w0 h0 : Int)
    (evs : List Event) :
    (RenderCharts initOk numCores myPage w0 h0 evs).state.ipData.length = 40 ∧
    (RenderCharts initOk numCores myPage w0 h0 evs).state.opData.length = 40 := by
  have h0s := initState_length numCores myPage
  unfold RenderCharts
  split
  · rw [(deferClose_hist _).1, (deferClose_hist _).2]
    have hu := updateUI_hist (initState numCores myPage) w0 h0
    cases hup : updateUI (initState numCores myPage) w0 h0 with
    | next s =>
      rw [hup] at hu
      simp only [Outcome.state] at hu
      exact eventLoop_length evs s (hu.1 ▸ h0s.1) (hu.2 ▸ h0s.2)
    | returned s => rw [hup] at hu; simp only [Outcome.state] at hu ⊢; exact ⟨hu.1 ▸ h0s.1, hu.2 ▸ h0s.2⟩
    | panicked s => rw [hup] at hu; simp only [Outcome.state] at hu ⊢; exact ⟨hu.1 ▸ h0s.1, hu.2 ▸ h0s.2⟩
    | fatal s => rw [hup] at hu; simp only [Outcome.state] at hu ⊢; exact ⟨hu.1 ▸ h0s.1, hu.2 ▸ h0s.2⟩
  · exact h0s


/-! ## Rolling content of the histories -/

theorem lastN_shift {α : Type} (a : List α) (x : α) (l : List α) (ha : a.length = 40) :
    lastN 40 (a.drop 1 ++ x :: l) = lastN 40 (a ++ x :: l) := by
  cases a with
  | nil => simp at ha
  | cons a0 a1 =>
    simp only [List.length_cons] at ha
    have h1 : (a1 ++ x :: l).length - 40 = l.length := by
      simp only [List.length_append, List.length_cons]; omega
    have h2 : (a0 :: a1 ++ x :: l).length - 40 = l.length + 1 := by
      simp only [List.length_append, List.length_cons]; omega
    simp only [lastN, List.drop_one, List.tail_cons]
    rw [h1, h2]
    rfl

theorem lastN_self {α : Type} (a : List α) (ha : a.length = 40) : lastN 40 (a ++ []) = a := by
  simp [lastN, ha]

/-- An event that appends no sample leaves both histories as they are. -/
theorem step_no_sample (s : State) (e : Event) (hn : sampleOf s e = none) :
    (step s e).state.ipData = s.ipData ∧ (step s e).state.opData = s.opData := by
  cases e with
  | uiEvent ID w h =>
    show (handleUI s ID w h).state.ipData = _ ∧ (handleUI s ID w h).state.opData = _
    unfold handleUI
    split
    · exact ⟨rfl, rfl⟩
    · split
      · exact updateUI_hist s w h
      · split <;> exact ⟨rfl, rfl⟩
  | tick w h => exact updateUI_hist s w h
  | data d =>
    show (handleData s d).state.ipData = _ ∧ (handleData s d).state.opData = _
    unfold handleData
    split
    · rename_i hrun
      split
      · exact updateCPU_hist 0 d.CpuStats s
      · split
        · exact ⟨rfl, rfl⟩
        · split
          · exact ⟨rfl, rfl⟩
          · split
            · rename_i hnet
              unfold updateNet
              cases hsum : sumNet d.NetStats (0, 0) with
              | none => exact ⟨rfl, rfl⟩
              | some cur =>
                simp only []
                split
                · rename_i hne
                  have hsum0 : sumNet d.NetStats 0 = some cur := hsum
                  simp [sampleOf, hrun, hnet, hne, hsum0] at hn
                · exact ⟨rfl, rfl⟩
            · exact ⟨rfl, rfl⟩
    · exact ⟨rfl, rfl⟩

/-- An event that appends a sample drops element 0 of each history and puts the sample
at the end. -/
theorem step_sample (s : State) (e : Event) (r t : ℚ) (hs : sampleOf s e = some (r, t))
    (hi : s.ipData.length = 40) (ho : s.opData.length = 40) :
    ∃ s1, step s e = .next s1 ∧ s1.ipData = s.ipData.drop 1 ++ [r] ∧
      s1.opData = s.opData.drop 1 ++ [t] := by
  cases e with
  | uiEvent ID w h => simp [sampleOf] at hs
  | tick w h => simp [sampleOf] at hs
  | data d =>
    simp only [sampleOf] at hs
    split at hs
    · rename_i hc
      obtain ⟨hrun, hnet, hne⟩ := hc
      cases hsum : sumNet d.NetStats (0, 0) with
      | none => rw [hsum] at hs; simp at hs
      | some cur =>
        have hsum0 : sumNet d.NetStats 0 = some cur := hsum
        rw [hsum] at hs
        simp only [Option.map_some', Option.some.injEq] at hs
        cases hip : s.ipData with
        | nil => rw [hip] at hi; simp at hi
        | cons a ip =>
          cases hop : s.opData with
          | nil => rw [hop] at ho; simp at ho
          | cons b op =>
            refine ⟨finishNet { s with ipData := ip ++ [(recentBytes s cur).1],
                                       opData := op ++ [(recentBytes s cur).2] } cur, ?_, ?_, ?_⟩
            · simp [step, handleData, hrun, hnet, updateNet, hsum0, hne, hip, hop]
            · simp [finishNet, hs]
            · simp [finishNet, hs]
    · simp at hs


/-- An event on which the loop stops appends nothing. -/
theorem step_stop_hist (s : State) (e : Event) (hstop : ∀ s1, step s e ≠ .next s1)
    (hi : s.ipData.length = 40) (ho : s.opData.length = 40) :
    (step s e).state.ipData = s.ipData ∧ (step s e).state.opData = s.opData := by
  cases hsam : sampleOf s e with
  | none => exact step_no_sample s e hsam
  | some p =>
    obtain ⟨s1, h1, _⟩ := step_sample s e p.1 p.2 hsam hi ho
    exact absurd h1 (hstop s1)

theorem eventLoop_content (evs : List Event) (s : State)
    (hi : s.ipData.length = 40) (ho : s.opData.length = 40) :
    (eventLoop s evs).state.ipData
        = lastN 40 (s.ipData ++ (samplesAlong s evs).map Prod.fst) ∧
    (eventLoop s evs).state.opData
        = lastN 40 (s.opData ++ (samplesAlong s evs).map Prod.snd) := by
  induction evs generalizing s with
  | nil =>
    simp only [eventLoop, samplesAlong, List.map_nil, Outcome.state]
    exact ⟨(lastN_self _ hi).symm, (lastN_self _ ho).symm⟩
  | cons e rest ih =>
    have hlen := step_length s e hi ho
    cases hstep : step s e with
    | next s1 =>
      rw [hstep] at hlen
      have ih1 := ih s1 hlen.1 hlen.2
      simp only [eventLoop, samplesAlong, hstep]
      cases hsam : sampleOf s e with
      | none =>
        have hn := step_no_sample s e hsam
        rw [hstep] at hn
        simp only [Outcome.state] at hn
        rw [ih1.1, ih1.2, hn.1, hn.2]
        simp
      | some p =>
        obtain ⟨s2, h2, hip, hop⟩ := step_sample s e p.1 p.2 hsam hi ho
        rw [hstep] at h2
        cases h2
        rw [ih1.1, ih1.2, hip, hop]
        simp only [Option.toList, List.map_append, List.map_cons, List.map_nil,
          List.append_assoc, List.singleton_append]
        exact ⟨lastN_shift _ _ _ hi, lastN_shift _ _ _ ho⟩
    | returned s1 =>
      have hh := step_stop_hist s e (by intro s2 h; rw [hstep] at h; cases h) hi ho
      rw [hstep] at hh
      simp only [eventLoop, samplesAlong, hstep, List.map_nil]
      exact ⟨hh.1.trans (lastN_self _ hi).symm, hh.2.trans (lastN_self _ ho).symm⟩
    | panicked s1 =>
      have hh := step_stop_hist s e (by intro s2 h; rw [hstep] at h; cases h) hi ho
      rw [hstep] at hh
      simp only [eventLoop, samplesAlong, hstep, List.map_nil]
      exact ⟨hh.1.trans (lastN_self _ hi).symm, hh.2.trans (lastN_self _ ho).symm⟩
    | fatal s1 =>
      have hh := step_stop_hist s e (by intro s2 h; rw [hstep] at h; cases h) hi ho
      rw [hstep] at hh
      simp only [eventLoop, samplesAlong, hstep, List.map_nil]
      exact ⟨hh.1.trans (lastN_self _ hi).symm, hh.2.trans (lastN_self _ ho).symm⟩

theorem RenderCharts_content (initOk : Bool) (numCores : Nat) (myPage : Page) (w0 h0 : Int)
    (evs : List Event) :
    (RenderCharts initOk numCores myPage w0 h0 evs).state.ipData
        = lastN 40 (List.replicate 40 0
            ++ (samplesOfRun initOk numCores myPage w0 h0 evs).map Prod.fst) ∧
    (RenderCharts initOk numCores myPage w0 h0 evs).state.opData
        = lastN 40 (List.replicate 40 0
            ++ (samplesOfRun initOk numCores myPage w0 h0 evs).map Prod.snd) := by
  have hz : (List.replicate 40 (0 : ℚ)).length = 40 := List.length_replicate 40 0
  have hu := updateUI_hist (initState numCores myPage) w0 h0
  unfold RenderCharts samplesOfRun
  cases initOk with
  | false =>
    simp only [Bool.false_eq_true, if_false, Outcome.state, List.map_nil]
    exact ⟨(lastN_self _ hz).symm, (lastN_self _ hz).symm⟩
  | true =>
    simp only [if_true]
    rw [(deferClose_hist _).1, (deferClose_hist _).2]
    cases hup : updateUI (initState numCores myPage) w0 h0 with
    | next s =>
      rw [hup] at hu
      simp only [Outcome.state] at hu
      have hip : s.ipData = List.replicate 40 0 := hu.1
      have hop : s.opData = List.replicate 40 0 := hu.2
      have hc := eventLoop_content evs s (hip ▸ hz) (hop ▸ hz)
      rw [hip, hop] at hc
      exact hc
    | returned s =>
      rw [hup] at hu
      simp only [Outcome.state, List.map_nil] at hu ⊢
      exact ⟨hu.1.trans (lastN_self _ hz).symm, hu.2.trans (lastN_self _ hz).symm⟩
    | panicked s =>
      rw [hup] at hu
      simp only [Outcome.state, List.map_nil] at hu ⊢
      exact ⟨hu.1.trans (lastN_self _ hz).symm, hu.2.trans (lastN_self _ hz).symm⟩
    | fatal s =>
      rw [hup] at hu
      simp only [Outcome.state, List.map_nil] at hu ⊢
      exact ⟨hu.1.trans (lastN_self _ hz).symm, hu.2.trans (lastN_self _ hz).symm⟩

theorem lastN_long {α : Type} (z l : List α) (hz : z.length = 40) (hl : 40 ≤ l.length) :
    lastN 40 (z ++ l) = l.drop (l.length - 40) := by
  have h : (z ++ l).length - 40 = z.length + (l.length - 40) := by
    simp only [List.length_append]; omega
  unfold lastN
  rw [h, List.drop_append]


/-! ## The claims -/

/-- C1. History length invariant: from the initial state of `RenderCharts`, after every
finite stream of events (whatever the outcome of the run) the received history
`ipData` and the sent history `opData` each have length exactly 40. -/
theorem history_length_invariant (initOk : Bool) (numCores : Nat) (myPage : Page)
    (w0 h0 : Int) (evs : List Event) :
    (RenderCharts initOk numCores myPage w0 h0 evs).state.ipData.length = 40 ∧
    (RenderCharts initOk numCores myPage w0 h0 evs).state.opData.length = 40 :=
  RenderCharts_length initOk numCores myPage w0 h0 evs

/-- C2. Rolling FIFO content: after any run of `RenderCharts` in which the `"NET"` case
appended the samples `s_1, ..., s_k`, each history is the last 40 elements of forty zeros
followed by the samples; when `k > 40` it is exactly the last 40 samples; and every event
that appends a sample drops element 0 and places the sample at index 39. -/
theorem rolling_fifo_content (initOk : Bool) (numCores : Nat) (myPage : Page)
    (w0 h0 : Int) (evs : List Event) :
    ((RenderCharts initOk numCores myPage w0 h0 evs).state.ipData
        = lastN 40 (List.replicate 40 0
            ++ (samplesOfRun initOk numCores myPage w0 h0 evs).map Prod.fst) ∧
     (RenderCharts initOk numCores myPage w0 h0 evs).state.opData
        = lastN 40 (List.replicate 40 0
            ++ (samplesOfRun initOk numCores myPage w0 h0 evs).map Prod.snd)) ∧
    (40 < (samplesOfRun initOk numCores myPage w0 h0 evs).length →
      (RenderCharts initOk numCores myPage w0 h0 evs).state.ipData
        = ((samplesOfRun initOk numCores myPage w0 h0 evs).map Prod.fst).drop
            ((samplesOfRun initOk numCores myPage w0 h0 evs).length - 40) ∧
      (RenderCharts initOk numCores myPage w0 h0 evs).state.opData
        = ((samplesOfRun initOk numCores myPage w0 h0 evs).map Prod.snd).drop
            ((samplesOfRun initOk numCores myPage w0 h0 evs).length - 40)) ∧
    (∀ (e : Event) (r t : ℚ),
      sampleOf (RenderCharts initOk numCores myPage w0 h0 evs).state e = some (r, t) →
      ∃ s1, step (RenderCharts initOk numCores myPage w0 h0 evs).state e = .next s1 ∧
        s1.ipData
          = (RenderCharts initOk numCores myPage w0 h0 evs).state.ipData.drop 1 ++ [r] ∧
        s1.opData
          = (RenderCharts initOk numCores myPage w0 h0 evs).state.opData.drop 1 ++ [t] ∧
        s1.ipData[39]? = some r ∧ s1.opData[39]? = some t) := by
  have hc := RenderCharts_content initOk numCores myPage w0 h0 evs
  have hl := RenderCharts_length initOk numCores myPage w0 h0 evs
  have hz : (List.replicate 40 (0 : ℚ)).length = 40 := List.length_replicate 40 0
  refine ⟨hc, ?_, ?_⟩
  · intro hk
    rw [hc.1, hc.2]
    have h1 := lastN_long (List.replicate 40 (0 : ℚ))
      ((samplesOfRun initOk numCores myPage w0 h0 evs).map Prod.fst) hz
      (by rw [List.length_map]; omega)
    have h2 := lastN_long (List.replicate 40 (0 : ℚ))
      ((samplesOfRun initOk numCores myPage w0 h0 evs).map Prod.snd) hz
      (by rw [List.length_map]; omega)
    rw [List.length_map] at h1 h2
    exact ⟨h1, h2⟩
  · intro e r t hs
    obtain ⟨s1, h1, hip, hop⟩ := step_sample _ e r t hs hl.1 hl.2
    refine ⟨s1, h1, hip, hop, ?_, ?_⟩
    · rw [hip]
      have hd : ((RenderCharts initOk numCores myPage w0 h0 evs).state.ipData.drop 1).length
          = 39 := by rw [List.length_drop, hl.1]
      rw [List.getElem?_append_right (by omega), hd]
      rfl
    · rw [hop]
      have hd : ((RenderCharts initOk numCores myPage w0 h0 evs).state.opData.drop 1).length
          = 39 := by rw [List.length_drop, hl.2]
      rw [List.getElem?_append_right (by omega), hd]
      rfl


set_option maxRecDepth 100000 in
set_option maxHeartbeats 2000000 in
/-- C2 at a concrete run: 42 identical messages append 41 samples, the histories are the
last 40 of them, and one more message with totals `(5, 2)` appends the sample `(4, 2)`. -/
theorem rolling_fifo_content_witness :
    40 < (samplesOfRun true 1 onePage 80 24 fortyTwoNet).length ∧
    ((RenderCharts true 1 onePage 80 24 fortyTwoNet).state.ipData
        = ((samplesOfRun true 1 onePage 80 24 fortyTwoNet).map Prod.fst).drop
            ((samplesOfRun true 1 onePage 80 24 fortyTwoNet).length - 40) ∧
      (RenderCharts true 1 onePage 80 24 fortyTwoNet).state.opData
        = ((samplesOfRun true 1 onePage 80 24 fortyTwoNet).map Prod.snd).drop
            ((samplesOfRun true 1 onePage 80 24 fortyTwoNet).length - 40)) ∧
    sampleOf (RenderCharts true 1 onePage 80 24 fortyTwoNet).state (.data (netMsg [[2, 5]]))
      = some (4, 2) ∧
    (∃ s1, step (RenderCharts true 1 onePage 80 24 fortyTwoNet).state (.data (netMsg [[2, 5]]))
        = .next s1 ∧
      s1.ipData = (RenderCharts true 1 onePage 80 24 fortyTwoNet).state.ipData.drop 1 ++ [4] ∧
      s1.opData = (RenderCharts true 1 onePage 80 24 fortyTwoNet).state.opData.drop 1 ++ [2] ∧
      s1.ipData[39]? = some 4 ∧ s1.opData[39]? = some 2) := by
  have hk : 40 < (samplesOfRun true 1 onePage 80 24 fortyTwoNet).length := by
    simp [samplesOfRun, samplesAlong, sampleOf, fortyTwoNet, List.replicate, updateUI,
      layoutGauges, layoutCPU, setBarGap, layoutGrid, State.emit, State.setGauge, onePage,
      List.range, List.range.loop, step, handleData, updateNet, sumNet, initState, finishNet,
      recentBytes, clampNeg, truncToInt, netMsg]
  have hs : sampleOf (RenderCharts true 1 onePage 80 24 fortyTwoNet).state
      (.data (netMsg [[2, 5]])) = some (4, 2) := by
    simp [RenderCharts, deferClose, eventLoop, sampleOf, fortyTwoNet, List.replicate, updateUI,
      layoutGauges, layoutCPU, setBarGap, layoutGrid, State.emit, State.setGauge, onePage,
      List.range, List.range.loop, step, handleData, updateNet, sumNet, initState, finishNet,
      recentBytes, clampNeg, truncToInt, netMsg, Outcome.state]
    norm_num
  exact ⟨hk, (rolling_fifo_content true 1 onePage 80 24 fortyTwoNet).2.1 hk, hs,
    (rolling_fifo_content true 1 onePage 80 24 fortyTwoNet).2.2 _ 4 2 hs⟩


/-! ## Totals of a well-formed message -/

theorem sumNet_wellFormed (stats : List (List ℚ)) (acc : ℚ × ℚ)
    (hwf : ∀ r ∈ stats, 2 ≤ r.length) :
    sumNet stats acc = some (acc.1 + recvTotal stats, acc.2 + sentTotal stats) := by
  induction stats generalizing acc with
  | nil => simp [sumNet, recvTotal, sentTotal]
  | cons r rest ih =>
    obtain ⟨a, b⟩ := acc
    have hr : 2 ≤ r.length := hwf r (List.mem_cons_self r rest)
    have h1 : r[1]? = some (r.getD 1 0) := by
      rw [List.getD_eq_getElem?_getD, List.getElem?_eq_getElem (by omega)]; rfl
    have h0 : r[0]? = some (r.getD 0 0) := by
      rw [List.getD_eq_getElem?_getD, List.getElem?_eq_getElem (by omega)]; rfl
    unfold sumNet
    rw [h1, h0]
    simp only []
    rw [ih _ (fun r1 h => hwf r1 (List.mem_cons_of_mem r h))]
    simp only [recvTotal, sentTotal, List.map_cons, List.sum_cons, add_assoc]

theorem sumNet_start (stats : List (List ℚ)) (hwf : ∀ r ∈ stats, 2 ≤ r.length) :
    sumNet stats (0, 0) = some (recvTotal stats, sentTotal stats) := by
  rw [sumNet_wellFormed stats (0, 0) hwf]
  simp

/-- What the `"NET"` case does in running mode once the sums are known. -/
theorem handleData_net (s : State) (d : DataStats) (cur : ℚ × ℚ) (hrun : s.run = true)
    (hnet : d.FieldSet = "NET") (hsum : sumNet d.NetStats (0, 0) = some cur) :
    handleData s d =
      if s.totalBytesRecv ≠ 0 then
        match s.ipData with
        | [] => .panicked s
        | _ :: ip =>
          match s.opData with
          | [] => .panicked { s with ipData := ip }
          | _ :: op =>
            .next (finishNet { s with ipData := ip ++ [(recentBytes s cur).1],
                                      opData := op ++ [(recentBytes s cur).2] } cur)
      else .next (finishNet s cur) := by
  unfold handleData updateNet
  rw [if_pos hrun, hnet, hsum]
  rfl


theorem clampNeg_of_nonneg (x : ℚ) (hx : 0 ≤ x) : clampNeg x = x := by
  unfold clampNeg truncToInt
  have h : 0 ≤ Int.tdiv x.num x.den :=
    Int.tdiv_nonneg (Rat.num_nonneg.mpr hx) (Int.ofNat_nonneg x.den)
  rw [if_neg (not_lt.mpr h)]

/-- C3 (the code at a failing input). After the messages with received totals `3/2` and
then `1` the clamp lets the delta `-1/2` through, because `int(-0.5)` is `0`: the received
history ends with a negative sample. -/
theorem negative_sample_after_small_regression :
    (RenderCharts true 1 onePage 80 24
        [.data (netMsg [[0, 3 / 2]]), .data (netMsg [[0, 1]])]).state.ipData
      = List.replicate 39 0 ++ [-1 / 2] ∧
    ∃ x ∈ (RenderCharts true 1 onePage 80 24
        [.data (netMsg [[0, 3 / 2]]), .data (netMsg [[0, 1]])]).state.ipData, x < 0 := by
  have h : (RenderCharts true 1 onePage 80 24
        [.data (netMsg [[0, 3 / 2]]), .data (netMsg [[0, 1]])]).state.ipData
      = List.replicate 39 0 ++ [-1 / 2] := by
    simp [RenderCharts, deferClose, eventLoop, updateUI, layoutGauges, layoutCPU, setBarGap,
      layoutGrid, State.emit, State.setGauge, onePage, List.range, List.range.loop, step,
      handleData, updateNet, sumNet, initState, finishNet, recentBytes, clampNeg, truncToInt,
      netMsg, Outcome.state]
    norm_num
    decide
  refine ⟨h, -1 / 2, ?_, by norm_num⟩
  rw [h]
  simp

/-- C4 (counterexample). A first `"NET"` message whose second interface record has a
single entry makes the summing loop panic: the run ends and no totals are recorded. -/
theorem first_net_short_record_panics :
    ∃ s, RenderCharts true 1 onePage 80 24 [.data (netMsg [[7, 9], [1]])] = .panicked s ∧
      s.totalBytesRecv = 0 ∧ s.totalBytesSent = 0 := by
  simp [RenderCharts, deferClose, eventLoop, updateUI, layoutGauges, layoutCPU, setBarGap,
    layoutGrid, State.emit, State.setGauge, onePage, List.range, List.range.loop, step,
    handleData, updateNet, sumNet, initState, netMsg]

/-- C4 (amended). First-sample suppression: in running mode with a stored received total
of 0 (as at startup, where both totals are 0), a `"NET"` message whose interface records
each have at least two entries leaves both histories unchanged and records the message's
summed totals as the stored totals. -/
theorem first_net_message_suppressed (s : State) (d : DataStats)
    (hrun : s.run = true) (hrecv : s.totalBytesRecv = 0)
    (hnet : d.FieldSet = "NET") (hwf : ∀ r ∈ d.NetStats, 2 ≤ r.length) :
    ∃ s1, step s (.data d) = .next s1 ∧ s1.ipData = s.ipData ∧ s1.opData = s.opData ∧
      s1.totalBytesRecv = recvTotal d.NetStats ∧ s1.totalBytesSent = sentTotal d.NetStats := by
  refine ⟨finishNet s (recvTotal d.NetStats, sentTotal d.NetStats), ?_, rfl, rfl, rfl, rfl⟩
  show handleData s d = _
  rw [handleData_net s d _ hrun hnet (sumNet_start d.NetStats hwf), if_neg (not_not.mpr hrecv)]

theorem first_net_message_suppressed_witness :
    ∃ s1, step (initState 1 onePage) (.data (netMsg [[7, 9], [1, 2]])) = .next s1 ∧
      s1.ipData = (initState 1 onePage).ipData ∧ s1.opData = (initState 1 onePage).opData ∧
      s1.totalBytesRecv = recvTotal (netMsg [[7, 9], [1, 2]]).NetStats ∧
      s1.totalBytesSent = sentTotal (netMsg [[7, 9], [1, 2]]).NetStats :=
  first_net_message_suppressed (initState 1 onePage) (netMsg [[7, 9], [1, 2]]) rfl rfl rfl
    (by simp [netMsg])

/-- C5 (counterexample). With first totals `(recv 0, sent 5)` and second totals
`(recv 10, sent 10)` the second message appends nothing: both histories are still the
forty zeros, not thirty-nine zeros followed by the delta. -/
theorem zero_recv_total_suppresses_second_sample :
    sumNet [[5, 0]] (0, 0) = some (0, 5) ∧ sumNet [[10, 10]] (0, 0) = some (10, 10) ∧
    (RenderCharts true 1 onePage 80 24
        [.data (netMsg [[5, 0]]), .data (netMsg [[10, 10]])]).state.ipData
      = List.replicate 40 0 ∧
    (RenderCharts true 1 onePage 80 24
        [.data (netMsg [[5, 0]]), .data (netMsg [[10, 10]])]).state.opData
      = List.replicate 40 0 ∧
    List.replicate 40 (0 : ℚ) ≠ (List.replicate 40 0).drop 1 ++ [10 - 0] ∧
    List.replicate 40 (0 : ℚ) ≠ (List.replicate 40 0).drop 1 ++ [10 - 5] := by
  refine ⟨by simp [sumNet], by simp [sumNet], ?_, ?_, ?_, ?_⟩
  · simp [RenderCharts, deferClose, eventLoop, updateUI, layoutGauges, layoutCPU, setBarGap,
      layoutGrid, State.emit, State.setGauge, onePage, List.range, List.range.loop, step,
      handleData, updateNet, sumNet, initState, finishNet, netMsg, Outcome.state]
  · simp [RenderCharts, deferClose, eventLoop, updateUI, layoutGauges, layoutCPU, setBarGap,
      layoutGrid, State.emit, State.setGauge, onePage, List.range, List.range.loop, step,
      handleData, updateNet, sumNet, initState, finishNet, netMsg, Outcome.state]
  · simp [List.replicate]
  · simp [List.replicate]
    norm_num


/-- The `"NET"` case on histories of length 40, once the sums are known. -/
theorem handleData_net_full (s : State) (d : DataStats) (cur : ℚ × ℚ) (hrun : s.run = true)
    (hnet : d.FieldSet = "NET") (hsum : sumNet d.NetStats (0, 0) = some cur)
    (hi : s.ipData.length = 40) (ho : s.opData.length = 40) :
    ∃ s1, handleData s d = .next s1 ∧
      s1.totalBytesRecv = cur.1 ∧ s1.totalBytesSent = cur.2 ∧ s1.run = true ∧
      (s.totalBytesRecv = 0 → s1.ipData = s.ipData ∧ s1.opData = s.opData) ∧
      (s.totalBytesRecv ≠ 0 →
        s1.ipData = s.ipData.drop 1 ++ [(recentBytes s cur).1] ∧
        s1.opData = s.opData.drop 1 ++ [(recentBytes s cur).2]) := by
  rw [handleData_net s d cur hrun hnet hsum]
  by_cases h0 : s.totalBytesRecv = 0
  · rw [if_neg (not_not.mpr h0)]
    exact ⟨_, rfl, rfl, rfl, hrun, fun _ => ⟨rfl, rfl⟩, fun h => absurd h0 h⟩
  · rw [if_pos h0]
    cases hip : s.ipData with
    | nil => rw [hip] at hi; simp at hi
    | cons a ip =>
      cases hop : s.opData with
      | nil => rw [hop] at ho; simp at ho
      | cons b op =>
        exact ⟨_, rfl, rfl, rfl, hrun, fun h => absurd h h0, fun _ => ⟨rfl, rfl⟩⟩

/-- C5 (amended). Second-message delta: for consecutive `"NET"` messages processed in
running mode with summed totals `(recv1, sent1)` then `(recv2, sent2)`, where
`recv1` is not zero and the second totals are componentwise at least the first, the second
message appends exactly one sample to each history, `recv2 - recv1` and `sent2 - sent1`;
from a state with stored received total 0 the first message appends nothing. -/
theorem second_net_message_delta (s : State) (d1 d2 : DataStats)
    (recv1 sent1 recv2 sent2 : ℚ)
    (hrun : s.run = true) (hi : s.ipData.length = 40) (ho : s.opData.length = 40)
    (hnet1 : d1.FieldSet = "NET") (hnet2 : d2.FieldSet = "NET")
    (hT1 : sumNet d1.NetStats (0, 0) = some (recv1, sent1))
    (hT2 : sumNet d2.NetStats (0, 0) = some (recv2, sent2))
    (hne : recv1 ≠ 0) (hr : recv1 ≤ recv2) (hs : sent1 ≤ sent2) :
    ∃ s1 s2, step s (.data d1) = .next s1 ∧ step s1 (.data d2) = .next s2 ∧
      eventLoop s [.data d1, .data d2] = .next s2 ∧
      s2.ipData = s1.ipData.drop 1 ++ [recv2 - recv1] ∧
      s2.opData = s1.opData.drop 1 ++ [sent2 - sent1] ∧
      (s.totalBytesRecv = 0 → s1.ipData = s.ipData ∧ s1.opData = s.opData) := by
  obtain ⟨s1, h1, hr1, hs1, hrun1, hkeep, _⟩ :=
    handleData_net_full s d1 (recv1, sent1) hrun hnet1 hT1 hi ho
  have hlen1 := handleData_length s d1 hi ho
  rw [h1] at hlen1
  obtain ⟨s2, h2, _, _, _, _, hpush⟩ :=
    handleData_net_full s1 d2 (recv2, sent2) hrun1 hnet2 hT2 hlen1.1 hlen1.2
  have hne1 : s1.totalBytesRecv ≠ 0 := by rw [hr1]; exact hne
  have hp := hpush hne1
  have hc1 : (recentBytes s1 (recv2, sent2)).1 = recv2 - recv1 := by
    simp only [recentBytes, hr1]
    exact clampNeg_of_nonneg _ (sub_nonneg.mpr hr)
  have hc2 : (recentBytes s1 (recv2, sent2)).2 = sent2 - sent1 := by
    simp only [recentBytes, hs1]
    exact clampNeg_of_nonneg _ (sub_nonneg.mpr hs)
  rw [hc1, hc2] at hp
  refine ⟨s1, s2, h1, h2, ?_, hp.1, hp.2, hkeep⟩
  simp only [eventLoop, step, h1, h2]

theorem second_net_message_delta_witness :
    ∃ s1 s2, step (initState 1 onePage) (.data (netMsg [[5, 3]])) = .next s1 ∧
      step s1 (.data (netMsg [[7, 4]])) = .next s2 ∧
      eventLoop (initState 1 onePage) [.data (netMsg [[5, 3]]), .data (netMsg [[7, 4]])]
        = .next s2 ∧
      s2.ipData = s1.ipData.drop 1 ++ [4 - 3] ∧
      s2.opData = s1.opData.drop 1 ++ [7 - 5] ∧
      ((initState 1 onePage).totalBytesRecv = 0 →
        s1.ipData = (initState 1 onePage).ipData ∧ s1.opData = (initState 1 onePage).opData) :=
  second_net_message_delta (initState 1 onePage) (netMsg [[5, 3]]) (netMsg [[7, 4]]) 3 5 4 7
    rfl (by simp [initState]) (by simp [initState]) rfl rfl
    (by simp [netMsg, sumNet]) (by simp [netMsg, sumNet]) (by norm_num) (by norm_num)
    (by norm_num)

/-- C6. Totals bookkeeping: in every state the loop of `RenderCharts` reaches, a `"NET"`
message processed in running mode whose interface records each have at least two entries
leaves `totalBytesSent` equal to the sum of the entries 0 and `totalBytesRecv` equal to the
sum of the entries 1, whatever the previous totals were; so the next delta is measured
against this message. -/
theorem totals_bookkeeping (initOk : Bool) (numCores : Nat) (myPage : Page) (w0 h0 : Int)
    (evs : List Event) (s : State) (d : DataStats)
    (hreach : RenderCharts initOk numCores myPage w0 h0 evs = .next s)
    (hrun : s.run = true) (hnet : d.FieldSet = "NET")
    (hwf : ∀ r ∈ d.NetStats, 2 ≤ r.length) :
    ∃ s1, step s (.data d) = .next s1 ∧
      s1.totalBytesSent = sentTotal d.NetStats ∧
      s1.totalBytesRecv = recvTotal d.NetStats ∧
      ∀ cur : ℚ × ℚ, recentBytes s1 cur
        = (clampNeg (cur.1 - recvTotal d.NetStats), clampNeg (cur.2 - sentTotal d.NetStats)) := by
  have hlen := RenderCharts_length initOk numCores myPage w0 h0 evs
  rw [hreach] at hlen
  obtain ⟨s1, h1, hr1, hs1, _, _, _⟩ :=
    handleData_net_full s d _ hrun hnet (sumNet_start d.NetStats hwf) hlen.1 hlen.2
  refine ⟨s1, h1, hs1, hr1, ?_⟩
  intro cur
  simp only [recentBytes, hr1, hs1]


theorem totals_bookkeeping_witness :
    ∃ s1, step (RenderCharts true 1 onePage 80 24 [.data (netMsg [[5, 3]])]).state
        (.data (netMsg [[7, 9], [1, 2]])) = .next s1 ∧
      s1.totalBytesSent = sentTotal (netMsg [[7, 9], [1, 2]]).NetStats ∧
      s1.totalBytesRecv = recvTotal (netMsg [[7, 9], [1, 2]]).NetStats ∧
      ∀ cur : ℚ × ℚ, recentBytes s1 cur
        = (clampNeg (cur.1 - recvTotal (netMsg [[7, 9], [1, 2]]).NetStats),
           clampNeg (cur.2 - sentTotal (netMsg [[7, 9], [1, 2]]).NetStats)) :=
  totals_bookkeeping true 1 onePage 80 24 [.data (netMsg [[5, 3]])]
    (RenderCharts true 1 onePage 80 24 [.data (netMsg [[5, 3]])]).state
    (netMsg [[7, 9], [1, 2]])
    (by simp [RenderCharts, deferClose, eventLoop, updateUI, layoutGauges, layoutCPU,
          setBarGap, layoutGrid, State.emit, State.setGauge, onePage, List.range,
          List.range.loop, step, handleData, updateNet, sumNet, initState, finishNet, netMsg,
          Outcome.state])
    (by simp [RenderCharts, deferClose, eventLoop, updateUI, layoutGauges, layoutCPU,
          setBarGap, layoutGrid, State.emit, State.setGauge, onePage, List.range,
          List.range.loop, step, handleData, updateNet, sumNet, initState, finishNet, netMsg,
          Outcome.state])
    rfl (by simp [netMsg])

/-! ## Pause, quit and unknown kinds -/

theorem handleData_paused (s : State) (d : DataStats) (hp : s.run = false) :
    handleData s d = .next s := by
  unfold handleData
  rw [hp]
  rfl

theorem eventLoop_paused (ms : List DataStats) (s : State) (hp : s.run = false) :
    eventLoop s (ms.map .data) = .next s := by
  induction ms with
  | nil => rfl
  | cons d rest ih =>
    simp only [List.map_cons, eventLoop, step, handleData_paused s d hp]
    exact ih

theorem eventLoop_append (a b : List Event) (s : State) :
    eventLoop s (a ++ b) =
      match eventLoop s a with
      | .next s1 => eventLoop s1 b
      | o => o := by
  induction a generalizing s with
  | nil => rfl
  | cons e rest ih =>
    simp only [List.cons_append, eventLoop]
    cases step s e with
    | next s1 => exact ih s1
    | returned s1 => rfl
    | panicked s1 => rfl
    | fatal s1 => rfl

theorem pause_pause (s : State) : pause (pause s) = s := by
  cases s
  simp [pause]

/-- C7. Paused discards: when the run flag is false, every metrics message, of any kind and
payload, leaves the whole state (page, histories, totals, run flag, effect log) unchanged,
and so does any number of metrics messages. -/
theorem paused_discards (s : State) (hp : s.run = false) :
    (∀ d : DataStats, step s (.data d) = .next s) ∧
    (∀ ms : List DataStats, eventLoop s (ms.map .data) = .next s) :=
  ⟨fun d => handleData_paused s d hp, fun ms => eventLoop_paused ms s hp⟩

theorem paused_discards_witness :
    (∀ d : DataStats, step (pause (initState 1 onePage)) (.data d)
        = .next (pause (initState 1 onePage))) ∧
    (∀ ms : List DataStats, eventLoop (pause (initState 1 onePage)) (ms.map .data)
        = .next (pause (initState 1 onePage))) :=
  paused_discards (pause (initState 1 onePage)) rfl

/-- C8. No backlog replay: from a running state, pausing with "s", receiving any list of
metrics messages, resuming with "s" and then receiving one message gives the same outcome
as receiving that one message directly; after the second "s" the state is the one before
the pause. -/
theorem no_backlog_replay (s : State) (ms : List DataStats) (d : DataStats)
    (w1 h1 w2 h2 : Int) (hrun : s.run = true) :
    eventLoop s ([.uiEvent "s" w1 h1] ++ ms.map .data ++ [.uiEvent "s" w2 h2]) = .next s ∧
    eventLoop s ([.uiEvent "s" w1 h1] ++ ms.map .data ++ [.uiEvent "s" w2 h2, .data d])
      = eventLoop s [.data d] := by
  have hp : (pause s).run = false := by simp [pause, hrun]
  have hs : ∀ (t : State) (w h : Int), step t (.uiEvent "s" w h) = .next (pause t) := by
    intro t w h
    simp [step, handleUI]
  have hmid : ∀ tail : List Event,
      eventLoop s ([.uiEvent "s" w1 h1] ++ ms.map .data ++ .uiEvent "s" w2 h2 :: tail)
        = eventLoop s tail := by
    intro tail
    rw [List.append_assoc, List.singleton_append]
    simp only [eventLoop, hs s w1 h1]
    rw [eventLoop_append, eventLoop_paused ms (pause s) hp]
    simp only [eventLoop, hs (pause s) w2 h2, pause_pause]
  exact ⟨hmid [], hmid [.data d]⟩

theorem no_backlog_replay_witness :
    eventLoop (initState 1 onePage)
        ([.uiEvent "s" 80 24] ++ [netMsg [[5, 3]], netMsg [[7, 4]]].map .data
          ++ [.uiEvent "s" 80 24]) = .next (initState 1 onePage) ∧
    eventLoop (initState 1 onePage)
        ([.uiEvent "s" 80 24] ++ [netMsg [[5, 3]], netMsg [[7, 4]]].map .data
          ++ [.uiEvent "s" 80 24, .data (netMsg [[9, 9]])])
      = eventLoop (initState 1 onePage) [.data (netMsg [[9, 9]])] :=
  no_backlog_replay (initState 1 onePage) [netMsg [[5, 3]], netMsg [[7, 4]]] (netMsg [[9, 9]])
    80 24 80 24 rfl

/-- C9. Quit: whatever state the loop has reached, a UI event with ID "q" or "<C-c>" sends
exactly one termination signal, then calls `wg.Done` exactly once, and returns; the state is
otherwise unchanged and the events after the quit event are not processed. -/
theorem quit_returns (s0 s : State) (pre rest : List Event) (ID : String) (w h : Int)
    (hpre : eventLoop s0 pre = .next s) (hq : ID = "q" ∨ ID = "<C-c>") :
    eventLoop s0 (pre ++ .uiEvent ID w h :: rest)
      = .returned { s with effects := s.effects ++ [.sendKill, .wgDone] } := by
  rw [eventLoop_append, hpre]
  simp only [eventLoop, step, handleUI, if_pos hq, State.emit, List.append_assoc,
    List.singleton_append]

theorem quit_returns_witness :
    eventLoop (initState 1 onePage)
        ([.uiEvent "s" 80 24] ++ .uiEvent "<C-c>" 80 24 :: [.tick 80 24, .uiEvent "q" 80 24])
      = .returned { pause (initState 1 onePage) with
          effects := (pause (initState 1 onePage)).effects ++ [.sendKill, .wgDone] } :=
  quit_returns (initState 1 onePage) (pause (initState 1 onePage)) [.uiEvent "s" 80 24]
    [.tick 80 24, .uiEvent "q" 80 24] "<C-c>" 80 24 (by simp [eventLoop, step, handleUI])
    (Or.inr rfl)

/-- C10. Unknown kind ignored: a metrics message whose `FieldSet` is none of "CPU", "MEM",
"DISK", "NET" is processed without error and leaves the whole state unchanged, in running
and in paused mode and whatever its payload fields are. -/
theorem unknown_kind_ignored (s : State) (d : DataStats)
    (hcpu : d.FieldSet ≠ "CPU") (hmem : d.FieldSet ≠ "MEM") (hdisk : d.FieldSet ≠ "DISK")
    (hnet : d.FieldSet ≠ "NET") :
    step s (.data d) = .next s := by
  simp only [step, handleData, if_neg hcpu, if_neg hmem, if_neg hdisk, if_neg hnet]
  split <;> rfl

theorem unknown_kind_ignored_witness :
    step (initState 1 onePage) (.data ⟨"", [50], [1, 2], [["sda"]], [[1]]⟩)
      = .next (initState 1 onePage) :=
  unknown_kind_ignored (initState 1 onePage) ⟨"", [50], [1, 2], [["sda"]], [[1]]⟩
    (by decide) (by decide) (by decide) (by decide)


/-! ## The layout pass -/

theorem LayoutFrame.refl (s : State) : LayoutFrame s s :=
  ⟨rfl, rfl, rfl, rfl, rfl, rfl, rfl, rfl, rfl, rfl, rfl, rfl, rfl⟩

theorem LayoutFrame.trans {s t u : State} (h1 : LayoutFrame s t) (h2 : LayoutFrame t u) :
    LayoutFrame s u :=
  ⟨h2.isCPUSet.trans h1.isCPUSet, h2.run.trans h1.run, h2.numCores.trans h1.numCores,
   h2.totalBytesRecv.trans h1.totalBytesRecv, h2.totalBytesSent.trans h1.totalBytesSent,
   h2.ipData.trans h1.ipData, h2.opData.trans h1.opData, h2.gauges.trans h1.gauges,
   h2.memData.trans h1.memData, h2.barWidth.trans h1.barWidth, h2.diskRows.trans h1.diskRows,
   h2.legend.trans h1.legend, h2.chartData.trans h1.chartData⟩

theorem LayoutFrame.emit (s : State) (e : Effect) : LayoutFrame s (s.emit e) :=
  ⟨rfl, rfl, rfl, rfl, rfl, rfl, rfl, rfl, rfl, rfl, rfl, rfl, rfl⟩

/-- Writing back a gauge that differs from the stored one in its rectangle only. -/
theorem LayoutFrame.setRect (s : State) (i : Nat) (g : Gauge) (r : Rect)
    (hg : s.myPage.CPUCharts[i]? = some g) :
    LayoutFrame s (s.setGauge i { g with rect := r }) := by
  refine ⟨rfl, rfl, rfl, rfl, rfl, rfl, rfl, ?_, rfl, rfl, rfl, rfl, rfl⟩
  show (s.myPage.CPUCharts.set i { g with rect := r }).map _ = _
  apply List.ext_getElem?
  intro k
  rw [List.map_set, List.getElem?_set]
  by_cases hk : i = k
  · subst hk
    have hlt : i < (s.myPage.CPUCharts.map fun g => (g.Title, g.Percent)).length := by
      rw [List.length_map]
      by_contra hge
      rw [List.getElem?_eq_none (by omega)] at hg
      cases hg
    rw [if_pos rfl, if_pos hlt, List.getElem?_map, hg]
    rfl
  · rw [if_neg hk]

theorem layoutCPU_frame (w height : Int) (l : List Nat) (s : State) :
    LayoutFrame s (layoutCPU w height l s).state := by
  induction l generalizing s with
  | nil => exact LayoutFrame.refl s
  | cons i rest ih =>
    unfold layoutCPU
    cases hg : s.myPage.CPUCharts[i]? with
    | none => exact LayoutFrame.refl s
    | some g =>
      simp only []
      exact (((LayoutFrame.setRect s i g _ hg).trans (LayoutFrame.emit _ _)).trans
        (LayoutFrame.emit _ _)).trans (ih _)

theorem updateUI_frame (s : State) (w h : Int) : LayoutFrame s (updateUI s w h).state := by
  unfold updateUI
  simp only []
  split
  · exact LayoutFrame.emit s .clear
  · have hbar : LayoutFrame s (setBarGap (s.emit .clear) w) :=
      ⟨rfl, rfl, rfl, rfl, rfl, rfl, rfl, rfl, rfl, rfl, rfl, rfl, rfl⟩
    have hg : LayoutFrame s
        (layoutGauges (setBarGap (s.emit .clear) w) w
          (Int.tdiv h (s.emit .clear).numCores)).state := by
      unfold layoutGauges
      split
      · exact hbar.trans (layoutCPU_frame _ _ _ _)
      · exact hbar
    split
    · rename_i s3 hs3
      rw [hs3] at hg
      have hgrid : LayoutFrame s3 (layoutGrid s3 w h
          (h - Int.tdiv h (s.emit .clear).numCores * (s.emit .clear).numCores)) :=
        ⟨rfl, rfl, rfl, rfl, rfl, rfl, rfl, rfl, rfl, rfl, rfl, rfl, rfl⟩
      exact LayoutFrame.trans hg hgrid
    · rename_i o _
      cases o <;> exact hg


/-- The gauge loop on indices that are all inside `CPUCharts`: it completes, logs the calls
in order and changes nothing but the rectangles of the listed gauges. -/
theorem layoutCPU_ok (w height : Int) (l : List Nat) (s : State)
    (hl : ∀ i ∈ l, i < s.myPage.CPUCharts.length) :
    ∃ s1, layoutCPU w height l s = .next s1 ∧
      s1.effects = s.effects ++ gaugeCalls w height l ∧
      s1.myPage.CPUCharts.length = s.myPage.CPUCharts.length ∧
      (∀ k, s1.myPage.CPUCharts[k]? = (s.myPage.CPUCharts[k]?).map
        (fun g => if k ∈ l then { g with rect := gaugeRect w height k } else g)) ∧
      s1.myPage.GridRect = s.myPage.GridRect ∧
      s1.myPage.MemoryChart = s.myPage.MemoryChart := by
  induction l generalizing s with
  | nil =>
    refine ⟨s, rfl, by simp [gaugeCalls], rfl, ?_, rfl, rfl⟩
    intro k
    cases s.myPage.CPUCharts[k]? <;> simp
  | cons i rest ih =>
    have hi : i < s.myPage.CPUCharts.length := hl i (List.mem_cons_self i rest)
    have hg : s.myPage.CPUCharts[i]? = some s.myPage.CPUCharts[i] :=
      List.getElem?_eq_getElem hi
    obtain ⟨s1, h1, he, hlen, hk, hgrid, hmem⟩ := ih
      (((s.setGauge i { s.myPage.CPUCharts[i] with rect := gaugeRect w height i }).emit
        (.setRect (.cpu i) (gaugeRect w height i))).emit (.render (.cpu i)))
      (by
        intro j hj
        show j < (s.myPage.CPUCharts.set i _).length
        rw [List.length_set]
        exact hl j (List.mem_cons_of_mem i hj))
    refine ⟨s1, ?_, ?_, ?_, ?_, hgrid, hmem⟩
    · unfold layoutCPU
      rw [hg]
      exact h1
    · rw [he]
      simp [State.emit, State.setGauge, gaugeCalls]
    · rw [hlen]
      exact List.length_set _ _ _
    · intro k
      rw [hk k]
      show ((s.myPage.CPUCharts.set i _)[k]?).map _ = _
      rw [List.getElem?_set]
      by_cases hik : i = k
      · subst hik
        rw [if_pos rfl, if_pos hi, hg]
        simp
      · rw [if_neg hik]
        cases s.myPage.CPUCharts[k]? with
        | none => rfl
        | some g =>
          have : (k ∈ i :: rest) ↔ (k ∈ rest) := by
            simp [List.mem_cons, Ne.symm hik]
          simp only [Option.map_some', this]


/-- The layout pass in a state with a positive core count and a gauge for every core: it
completes, and its calls, rectangles and bar gap are the ones the code computes. -/
theorem updateUI_ok (s : State) (w h : Int) (hset : s.isCPUSet = true)
    (hn : s.numCores ≠ 0) (hlen : s.numCores ≤ s.myPage.CPUCharts.length) :
    ∃ s1, updateUI s w h = .next s1 ∧
      s1.effects = s.effects ++ ([Effect.clear]
        ++ gaugeCalls w (Int.tdiv h s.numCores) (List.range s.numCores)
        ++ [Effect.setRect .grid
              ⟨Int.tdiv w 2, 0, w, h - (h - Int.tdiv h s.numCores * s.numCores)⟩,
            Effect.render .grid]) ∧
      (∀ k, s1.myPage.CPUCharts[k]? = (s.myPage.CPUCharts[k]?).map
        (fun g => if k < s.numCores
          then { g with rect := gaugeRect w (Int.tdiv h s.numCores) k } else g)) ∧
      s1.myPage.GridRect
        = ⟨Int.tdiv w 2, 0, w, h - (h - Int.tdiv h s.numCores * s.numCores)⟩ ∧
      s1.myPage.MemoryChart = (setBarGap s w).myPage.MemoryChart := by
  obtain ⟨s3, h3, he, _, hk, _, hmem⟩ :=
    layoutCPU_ok w (Int.tdiv h s.numCores) (List.range s.numCores)
      (setBarGap (s.emit .clear) w)
      (fun i hi => lt_of_lt_of_le (List.mem_range.mp hi) hlen)
  have hn1 : ¬ (s.emit Effect.clear).numCores = 0 := hn
  have hg : layoutGauges (setBarGap (s.emit .clear) w) w (Int.tdiv h s.numCores)
      = .next s3 := by
    unfold layoutGauges
    rw [if_pos (show (setBarGap (s.emit .clear) w).isCPUSet = true from hset)]
    exact h3
  refine ⟨layoutGrid s3 w h (h - Int.tdiv h s.numCores * s.numCores), ?_, ?_, ?_, rfl, ?_⟩
  · unfold updateUI
    simp only []
    rw [if_neg hn1]
    show (match layoutGauges (setBarGap (s.emit .clear) w) w (Int.tdiv h s.numCores) with
      | .next s3 => Outcome.next (layoutGrid s3 w h (h - Int.tdiv h s.numCores * s.numCores))
      | o => o) = _
    rw [hg]
  · show (s3.effects ++ [_]) ++ [_] = _
    rw [he]
    simp [State.emit, setBarGap]
  · intro k
    show s3.myPage.CPUCharts[k]? = _
    rw [hk k]
    simp only [List.mem_range]
    rfl
  · exact hmem


/-! ## The layout in the words of the spec -/

theorem gaugeRect_eq_bandRect (w h : Int) (n i : Nat) (hw : 0 ≤ w) (hh : 0 ≤ h) :
    gaugeRect w (Int.tdiv h n) i = bandRect w (h / n) i := by
  unfold gaugeRect bandRect
  rw [Int.tdiv_eq_ediv hh (Int.ofNat_nonneg n), Int.tdiv_eq_ediv hw (by decide)]

theorem gridRect_eq_panelRect (w h : Int) (n : Nat) (hw : 0 ≤ w) (hh : 0 ≤ h) :
    (⟨Int.tdiv w 2, 0, w, h - (h - Int.tdiv h n * n)⟩ : Rect) = panelRect w h n := by
  unfold panelRect
  rw [Int.tdiv_eq_ediv hh (Int.ofNat_nonneg n), Int.tdiv_eq_ediv hw (by decide),
    Int.emod_def, Int.mul_comm (h / (n : Int)) n]

/-- The layout pass on a terminal of non-negative size, with a positive core count and a
gauge for every core, in the words of the spec. -/
theorem updateUI_layout (s : State) (w h : Int) (hw : 0 ≤ w) (hh : 0 ≤ h)
    (hset : s.isCPUSet = true) (hn : 1 ≤ s.numCores)
    (hpage : s.myPage.CPUCharts.length = s.numCores) :
    ∃ s1, updateUI s w h = .next s1 ∧
      (∀ i, i < s.numCores → ∃ g0, s.myPage.CPUCharts[i]? = some g0 ∧
        s1.myPage.CPUCharts[i]?
          = some { g0 with rect := bandRect w (h / s.numCores) i } ∧
        Effect.setRect (.cpu i) (bandRect w (h / s.numCores) i) ∈ s1.effects) ∧
      s1.myPage.GridRect = panelRect w h s.numCores ∧
      Effect.setRect .grid (panelRect w h s.numCores) ∈ s1.effects := by
  obtain ⟨s1, h1, he, hk, hgrid, _⟩ :=
    updateUI_ok s w h hset (by omega) (le_of_eq hpage.symm)
  refine ⟨s1, h1, ?_, ?_, ?_⟩
  · intro i hi
    have hlt : i < s.myPage.CPUCharts.length := by omega
    refine ⟨s.myPage.CPUCharts[i], List.getElem?_eq_getElem hlt, ?_, ?_⟩
    · rw [hk i, List.getElem?_eq_getElem hlt, Option.map_some', if_pos hi,
        gaugeRect_eq_bandRect w h s.numCores i hw hh]
    · rw [he, ← gaugeRect_eq_bandRect w h s.numCores i hw hh]
      simp only [List.mem_append, gaugeCalls, List.mem_flatMap, List.mem_range,
        List.mem_cons]
      exact Or.inr (Or.inl (Or.inr ⟨i, hi, Or.inl rfl⟩))
  · rw [hgrid]
    exact gridRect_eq_panelRect w h s.numCores hw hh
  · rw [he, gridRect_eq_panelRect w h s.numCores hw hh]
    simp


/-- C11. CPU band layout: for a terminal of width `w ≥ 0` and height `h ≥ 0` and a core
count `n ≥ 1` (one gauge per core), `updateUI` completes and gives gauge `i`, for every
`i < n`, the rectangle with columns `[0, w/2)` and rows `[i * (h/n), (i+1) * (h/n))`, of
height exactly `h/n` (floor division); for `n = 4` and `h = 40` that height is 10 and the
remainder `h - 4 * 10` is 0. -/
theorem cpu_band_layout (s : State) (w h : Int) (hw : 0 ≤ w) (hh : 0 ≤ h)
    (hset : s.isCPUSet = true) (hn : 1 ≤ s.numCores)
    (hpage : s.myPage.CPUCharts.length = s.numCores) :
    ∃ s1, updateUI s w h = .next s1 ∧
      (∀ i, i < s.numCores → ∃ g, s1.myPage.CPUCharts[i]? = some g ∧
        g.rect = ⟨0, i * (h / s.numCores), w / 2, (i + 1) * (h / s.numCores)⟩ ∧
        g.rect.y2 - g.rect.y1 = h / s.numCores ∧
        Effect.setRect (.cpu i) g.rect ∈ s1.effects) ∧
      (s.numCores = 4 → h = 40 →
        (∀ i, i < 4 → ∃ g, s1.myPage.CPUCharts[i]? = some g ∧ g.rect.y2 - g.rect.y1 = 10) ∧
        h - 4 * 10 = 0) := by
  obtain ⟨s1, h1, hb, _, _⟩ := updateUI_layout s w h hw hh hset hn hpage
  have hband : ∀ i, i < s.numCores → ∃ g, s1.myPage.CPUCharts[i]? = some g ∧
      g.rect = ⟨0, i * (h / s.numCores), w / 2, (i + 1) * (h / s.numCores)⟩ ∧
      g.rect.y2 - g.rect.y1 = h / s.numCores ∧
      Effect.setRect (.cpu i) g.rect ∈ s1.effects := by
    intro i hi
    obtain ⟨g0, _, hg, hmem⟩ := hb i hi
    refine ⟨_, hg, rfl, ?_, hmem⟩
    show ((i : Int) + 1) * (h / s.numCores) - i * (h / s.numCores) = h / s.numCores
    ring
  refine ⟨s1, h1, hband, ?_⟩
  intro h4 h40
  refine ⟨?_, by omega⟩
  intro i hi
  obtain ⟨g, hg, _, hht, _⟩ := hband i (by omega)
  refine ⟨g, hg, ?_⟩
  rw [hht, h4, h40]
  decide

theorem cpu_band_layout_witness :
    ∃ s1, updateUI (initState 4 fourPage) 80 40 = .next s1 ∧
      (∀ i, i < 4 → ∃ g, s1.myPage.CPUCharts[i]? = some g ∧ g.rect.y2 - g.rect.y1 = 10) ∧
      (40 : Int) - 4 * 10 = 0 := by
  obtain ⟨s1, h1, _, h4⟩ := cpu_band_layout (initState 4 fourPage) 80 40 (by decide)
    (by decide) rfl (by decide) rfl
  exact ⟨s1, h1, h4 rfl rfl⟩

/-- C12. Right panel layout: for `w ≥ 0`, `h ≥ 0` and `n ≥ 1` (one gauge per core),
`updateUI` completes and gives the grid the rectangle with columns `[w/2, w)` and rows
`[0, h - r)`, where `r = heightOffset = h - (h/n) * n` equals `h mod n` and
`0 ≤ r < n`: exactly `r` rows at the bottom are outside the grid. -/
theorem right_panel_layout (s : State) (w h : Int) (hw : 0 ≤ w) (hh : 0 ≤ h)
    (hset : s.isCPUSet = true) (hn : 1 ≤ s.numCores)
    (hpage : s.myPage.CPUCharts.length = s.numCores) :
    ∃ s1, updateUI s w h = .next s1 ∧
      s1.myPage.GridRect = ⟨w / 2, 0, w, h - (h - (h / s.numCores) * s.numCores)⟩ ∧
      Effect.setRect .grid s1.myPage.GridRect ∈ s1.effects ∧
      h - (h / s.numCores) * s.numCores = h % s.numCores ∧
      0 ≤ h % s.numCores ∧ h % s.numCores < s.numCores ∧
      h - s1.myPage.GridRect.y2 = h % s.numCores := by
  obtain ⟨s1, h1, _, hg, hmem⟩ := updateUI_layout s w h hw hh hset hn hpage
  have hpos : (0 : Int) < s.numCores := by exact_mod_cast hn
  have hmod : h - (h / s.numCores) * s.numCores = h % s.numCores := by
    rw [Int.emod_def, Int.mul_comm]
  refine ⟨s1, h1, ?_, ?_, hmod, Int.emod_nonneg h (ne_of_gt hpos),
    Int.emod_lt_of_pos h hpos, ?_⟩
  · rw [hg, hmod]
    rfl
  · rw [hg]
    exact hmem
  · rw [hg]
    show h - (h - h % s.numCores) = h % s.numCores
    ring

theorem right_panel_layout_witness :
    ∃ s1, updateUI (initState 4 fourPage) 81 42 = .next s1 ∧
      s1.myPage.GridRect = ⟨81 / 2, 0, 81, 42 - (42 - (42 / (4 : Nat)) * (4 : Nat))⟩ ∧
      Effect.setRect .grid s1.myPage.GridRect ∈ s1.effects ∧
      (42 : Int) - (42 / (4 : Nat)) * (4 : Nat) = 42 % (4 : Nat) ∧
      (0 : Int) ≤ 42 % (4 : Nat) ∧ (42 : Int) % (4 : Nat) < (4 : Nat) ∧
      42 - s1.myPage.GridRect.y2 = 42 % (4 : Nat) :=
  right_panel_layout (initState 4 fourPage) 81 42 (by decide) (by decide) rfl (by decide) rfl

/-- C13 (counterexample). With no core the layout pass does not complete: on a one-gauge
page and an 80 by 24 terminal it panics. -/
theorem zero_cores_layout_panics :
    ¬ ∃ s1, updateUI (initState 0 onePage) 80 24 = .next s1 := by
  simp [updateUI, State.emit, initState]

/-- C13 (amended). Zero cores edge case: for core count 0 and every terminal size, the
layout pass clears the screen and then panics on the division `h / numCores`; it sets no
rectangle and renders no widget, and the state is otherwise unchanged. -/
theorem zero_cores_layout (s : State) (w h : Int) (hn : s.numCores = 0) :
    updateUI s w h = .panicked { s with effects := s.effects ++ [Effect.clear] } := by
  unfold updateUI
  simp only []
  rw [if_pos (show (s.emit .clear).numCores = 0 from hn)]
  rfl

theorem zero_cores_layout_witness :
    updateUI (initState 0 fourPage) 100 30
      = .panicked { initState 0 fourPage with
          effects := (initState 0 fourPage).effects ++ [Effect.clear] } :=
  zero_cores_layout (initState 0 fourPage) 100 30 rfl


/-! ## Which events reach the screen -/

theorem updateCPU_effects (i : Nat) (rates : List ℚ) (s : State) :
    (updateCPU i rates s).state.effects = s.effects := by
  induction rates generalizing i s with
  | nil => rfl
  | cons rate rest ih =>
    unfold updateCPU
    cases hg : s.myPage.CPUCharts[i]? with
    | none => rfl
    | some g =>
      simp only []
      exact (ih _ _).trans rfl

theorem updateNet_effects (s : State) (stats : List (List ℚ)) :
    (updateNet s stats).state.effects = s.effects := by
  unfold updateNet
  cases sumNet stats (0, 0) with
  | none => rfl
  | some cur =>
    simp only []
    split
    · cases s.ipData with
      | nil => rfl
      | cons a ip =>
        cases s.opData with
        | nil => rfl
        | cons b op => rfl
    · rfl

theorem handleData_effects (s : State) (d : DataStats) :
    (handleData s d).state.effects = s.effects := by
  unfold handleData
  split
  · split
    · exact updateCPU_effects 0 d.CpuStats s
    · split
      · rfl
      · split
        · rfl
        · split
          · exact updateNet_effects s d.NetStats
          · rfl
  · rfl

theorem renderCalls_gaugeCalls (w height : Int) (l : List Nat) :
    renderCalls (gaugeCalls w height l) = l.map Widget.cpu := by
  induction l with
  | nil => rfl
  | cons i rest ih =>
    have hcons : gaugeCalls w height (i :: rest)
        = [Effect.setRect (.cpu i) (gaugeRect w height i), Effect.render (.cpu i)]
          ++ gaugeCalls w height rest := by
      simp [gaugeCalls]
    rw [hcons]
    unfold renderCalls at ih ⊢
    rw [List.filterMap_append, ih]
    rfl

/-- C14. Tick/resize frame: a timer tick and a "<Resize>" event both run `updateUI`, and
whatever its outcome the run flag, the stored totals, both histories and all widget data
(gauge titles and percentages, memory data, disk rows, network chart data, legend text)
are unchanged; only rectangles, the bar gap and the call log can differ. -/
theorem tick_resize_frame (s : State) (w h : Int) :
    step s (.tick w h) = updateUI s w h ∧
    step s (.uiEvent "<Resize>" w h) = updateUI s w h ∧
    LayoutFrame s (step s (.tick w h)).state ∧
    LayoutFrame s (step s (.uiEvent "<Resize>" w h)).state := by
  have hr : step s (.uiEvent "<Resize>" w h) = updateUI s w h := by
    simp [step, handleUI]
  refine ⟨rfl, hr, updateUI_frame s w h, ?_⟩
  rw [hr]
  exact updateUI_frame s w h

/-- C15. Redraw only on tick or resize: an event other than a tick or "<Resize>" (a
metrics message of any kind, the pause toggle, any other key) adds no clear, set-rectangle
or render call; a tick and a "<Resize>" run `updateUI`, as the start of `RenderCharts`
does, and with a positive core count and one gauge per core that pass renders the gauges
`0 .. n-1` once each, in order, and then the grid once. -/
theorem redraw_only_on_tick_or_resize (s : State) (w h : Int) :
    (∀ e : Event, (∀ w1 h1, e ≠ .tick w1 h1) → (∀ w1 h1, e ≠ .uiEvent "<Resize>" w1 h1) →
      ∃ extra, (step s e).state.effects = s.effects ++ extra ∧
        ∀ x ∈ extra, x = Effect.sendKill ∨ x = Effect.wgDone) ∧
    (∀ d : DataStats, (step s (.data d)).state.effects = s.effects) ∧
    (step s (.uiEvent "s" w h)).state.effects = s.effects ∧
    step s (.tick w h) = updateUI s w h ∧
    step s (.uiEvent "<Resize>" w h) = updateUI s w h ∧
    (∀ (n : Nat) (page : Page) (evs : List Event),
      RenderCharts true n page w h evs
        = deferClose (match updateUI (initState n page) w h with
            | .next s1 => eventLoop s1 evs
            | o => o)) ∧
    (s.isCPUSet = true → 1 ≤ s.numCores → s.myPage.CPUCharts.length = s.numCores →
      ∃ s1 calls, updateUI s w h = .next s1 ∧ s1.effects = s.effects ++ calls ∧
        renderCalls calls = (List.range s.numCores).map Widget.cpu ++ [Widget.grid]) := by
  refine ⟨?_, fun d => handleData_effects s d, ?_, rfl, by simp [step, handleUI], ?_, ?_⟩
  · intro e ht hr
    cases e with
    | tick w1 h1 => exact absurd rfl (ht w1 h1)
    | data d => exact ⟨[], by rw [List.append_nil]; exact handleData_effects s d, by simp⟩
    | uiEvent ID w1 h1 =>
      show ∃ extra, (handleUI s ID w1 h1).state.effects = s.effects ++ extra ∧ _
      unfold handleUI
      split
      · exact ⟨[.sendKill, .wgDone], by simp [Outcome.state, State.emit], by simp⟩
      · split
        · rename_i hres
          exact absurd (by rw [hres]) (hr w1 h1)
        · split
          · exact ⟨[], by simp [Outcome.state, pause], by simp⟩
          · exact ⟨[], by simp [Outcome.state], by simp⟩
  · simp [step, handleUI, Outcome.state, pause]
  · intro n page evs
    rfl
  · intro hset hn hpage
    obtain ⟨s1, h1, he, _⟩ := updateUI_ok s w h hset (by omega) (le_of_eq hpage.symm)
    refine ⟨s1, _, h1, he, ?_⟩
    unfold renderCalls
    rw [List.filterMap_append, List.filterMap_append]
    have hg := renderCalls_gaugeCalls w (Int.tdiv h s.numCores) (List.range s.numCores)
    unfold renderCalls at hg
    rw [hg]
    rfl


theorem redraw_only_on_tick_or_resize_witness :
    (∃ extra, (step (initState 4 fourPage) (.data (cpuMsg [1, 2]))).state.effects
        = (initState 4 fourPage).effects ++ extra ∧
      ∀ x ∈ extra, x = Effect.sendKill ∨ x = Effect.wgDone) ∧
    (∃ s1 calls, updateUI (initState 4 fourPage) 80 40 = .next s1 ∧
      s1.effects = (initState 4 fourPage).effects ++ calls ∧
      renderCalls calls = (List.range 4).map Widget.cpu ++ [Widget.grid]) :=
  ⟨(redraw_only_on_tick_or_resize (initState 4 fourPage) 80 40).1 (.data (cpuMsg [1, 2]))
      (fun _ _ hne => by cases hne) (fun _ _ hne => by cases hne),
   (redraw_only_on_tick_or_resize (initState 4 fourPage) 80 40).2.2.2.2.2.2 rfl
      (by decide) rfl⟩

/-! ## The CPU handler -/

/-- The range loop of the `"CPU"` case when every index is inside `CPUCharts`: it
completes and rewrites title and percentage of the gauges `i0 .. i0 + len - 1` only. -/
theorem updateCPU_ok (i0 : Nat) (rates : List ℚ) (s : State)
    (hlen : i0 + rates.length ≤ s.myPage.CPUCharts.length) :
    ∃ s1, updateCPU i0 rates s = .next s1 ∧
      s1 = { s with myPage := { s.myPage with CPUCharts := s1.myPage.CPUCharts } } ∧
      s1.myPage.CPUCharts.length = s.myPage.CPUCharts.length ∧
      (∀ k, k < i0 ∨ i0 + rates.length ≤ k →
        s1.myPage.CPUCharts[k]? = s.myPage.CPUCharts[k]?) ∧
      (∀ j rate, rates[j]? = some rate → ∃ g0, s.myPage.CPUCharts[i0 + j]? = some g0 ∧
        s1.myPage.CPUCharts[i0 + j]?
          = some { g0 with Title := " CPU " ++ toString (i0 + j) ++ " ",
                           Percent := truncToInt rate }) := by
  induction rates generalizing i0 s with
  | nil =>
    refine ⟨s, rfl, rfl, rfl, fun _ _ => rfl, ?_⟩
    intro j rate hj
    simp at hj
  | cons rate rest ih =>
    simp only [List.length_cons] at hlen
    have hi : i0 < s.myPage.CPUCharts.length := by omega
    have hg : s.myPage.CPUCharts[i0]? = some s.myPage.CPUCharts[i0] :=
      List.getElem?_eq_getElem hi
    obtain ⟨s1, h1, heq, hl1, hout, hin⟩ := ih (i0 + 1)
      (s.setGauge i0 { s.myPage.CPUCharts[i0] with
        Title := " CPU " ++ toString i0 ++ " ", Percent := truncToInt rate })
      (by
        show i0 + 1 + rest.length ≤ (s.myPage.CPUCharts.set i0 _).length
        rw [List.length_set]
        omega)
    have hset : ∀ k, k ≠ i0 →
        (s.setGauge i0 { s.myPage.CPUCharts[i0] with
          Title := " CPU " ++ toString i0 ++ " ",
          Percent := truncToInt rate }).myPage.CPUCharts[k]? = s.myPage.CPUCharts[k]? := by
      intro k hk
      show (s.myPage.CPUCharts.set i0 _)[k]? = _
      rw [List.getElem?_set_ne (Ne.symm hk)]
    refine ⟨s1, ?_, ?_, ?_, ?_, ?_⟩
    · unfold updateCPU
      rw [hg]
      exact h1
    · exact heq
    · rw [hl1]
      exact List.length_set _ _ _
    · intro k hk
      simp only [List.length_cons] at hk
      rw [hout k (by omega), hset k (by omega)]
    · intro j r hj
      cases j with
      | zero =>
        simp only [List.getElem?_cons_zero, Option.some.injEq] at hj
        subst hj
        refine ⟨s.myPage.CPUCharts[i0], hg, ?_⟩
        rw [Nat.add_zero, hout i0 (Or.inl (by omega))]
        show (s.myPage.CPUCharts.set i0 _)[i0]? = _
        rw [List.getElem?_set_self hi]
      | succ j =>
        simp only [List.getElem?_cons_succ] at hj
        obtain ⟨g0, hg0, hg1⟩ := hin j r hj
        have hidx : i0 + (j + 1) = i0 + 1 + j := by omega
        rw [hidx]
        rw [hset (i0 + 1 + j) (by omega)] at hg0
        exact ⟨g0, hg0, hg1⟩

/-! ## Truncation and the clamp -/

/-- The conversion `int(x)` of the code is truncation toward zero. -/
theorem truncToInt_eq_truncTowardZero (q : ℚ) : truncToInt q = truncTowardZero q := by
  unfold truncToInt truncTowardZero
  by_cases hq : 0 ≤ q
  · rw [if_pos hq, Rat.floor_def,
      Int.tdiv_eq_ediv (Rat.num_nonneg.mpr hq) (Int.ofNat_nonneg q.den)]
  · rw [if_neg hq]
    have hneg : 0 ≤ -q := by linarith
    have hfl : ⌊-q⌋ = (-q.num) / (q.den : Int) := by
      rw [Rat.floor_def, Rat.num_neg_eq_neg_num, Rat.den_neg_eq_den]
    have hnum : 0 ≤ -q.num := by
      have := Rat.num_nonneg.mpr hneg
      rwa [Rat.num_neg_eq_neg_num] at this
    have hc : ⌈q⌉ = -⌊-q⌋ := by rw [Int.floor_neg, neg_neg]
    have ht : Int.tdiv q.num q.den = -Int.tdiv (-q.num) q.den := by
      rw [Int.neg_tdiv, neg_neg]
    rw [hc, hfl, ht, Int.tdiv_eq_ediv hnum (Int.ofNat_nonneg q.den)]

/-- The truncated value is negative exactly when the number is at most `-1`. -/
theorem truncToInt_neg_iff (q : ℚ) : truncToInt q < 0 ↔ q ≤ -1 := by
  rw [truncToInt_eq_truncTowardZero]
  unfold truncTowardZero
  by_cases hq : 0 ≤ q
  · rw [if_pos hq]
    constructor
    · intro h
      exact absurd (Int.floor_nonneg.mpr hq) (not_le.mpr h)
    · intro h
      linarith
  · rw [if_neg hq]
    constructor
    · intro h
      have h1 : ⌈q⌉ ≤ -1 := by omega
      have h2 := Int.ceil_le.mp h1
      simpa using h2
    · intro h
      have h1 : ⌈q⌉ ≤ -1 := Int.ceil_le.mpr (by simpa using h)
      omega

theorem clampNeg_eq (x : ℚ) : clampNeg x = if x ≤ -1 then 0 else x := by
  unfold clampNeg
  by_cases hx : x ≤ -1
  · rw [if_pos hx, if_pos ((truncToInt_neg_iff x).mpr hx)]
  · rw [if_neg hx, if_neg (fun h => hx ((truncToInt_neg_iff x).mp h))]

theorem clampNeg_intCast (z : Int) : clampNeg (z : ℚ) = ((max 0 z : Int) : ℚ) := by
  rw [clampNeg_eq]
  by_cases hz : z ≤ -1
  · have h1 : (z : ℚ) ≤ -1 := by exact_mod_cast hz
    rw [if_pos h1, max_eq_left (by omega)]
    simp
  · have h1 : ¬ (z : ℚ) ≤ -1 := by
      intro h
      exact hz (by exact_mod_cast h)
    rw [if_neg h1, max_eq_right (by omega)]


/-- C16. CPU update is in range and exact: a `"CPU"` message processed in running mode whose
`CpuStats` has length `k ≤ n` (core count, one gauge per core) is handled without an index
error; afterwards gauge `i`, for every `i < k`, has `Percent` equal to `rate_i` truncated
toward zero and `Title` equal to " CPU i " with `i` in decimal, its rectangle unchanged;
the gauges from `k` on and everything outside `CPUCharts` are unchanged. -/
theorem cpu_update_exact (s : State) (d : DataStats) (hrun : s.run = true)
    (hcpu : d.FieldSet = "CPU") (hk : d.CpuStats.length ≤ s.numCores)
    (hpage : s.myPage.CPUCharts.length = s.numCores) :
    ∃ s1, step s (.data d) = .next s1 ∧
      (∀ (i : Nat) (rate : ℚ), d.CpuStats[i]? = some rate →
        ∃ g0 g : Gauge, s.myPage.CPUCharts[i]? = some g0 ∧ s1.myPage.CPUCharts[i]? = some g ∧
          g.Percent = truncTowardZero rate ∧ g.Title = " CPU " ++ toString i ++ " " ∧
          g.rect = g0.rect) ∧
      (∀ i : Nat, d.CpuStats.length ≤ i → s1.myPage.CPUCharts[i]? = s.myPage.CPUCharts[i]?) ∧
      s1.myPage.CPUCharts.length = s.myPage.CPUCharts.length ∧
      s1 = { s with myPage := { s.myPage with CPUCharts := s1.myPage.CPUCharts } } := by
  obtain ⟨s1, h1, heq, hlen, hout, hin⟩ :=
    updateCPU_ok 0 d.CpuStats s (by omega)
  refine ⟨s1, ?_, ?_, ?_, hlen, heq⟩
  · show handleData s d = _
    unfold handleData
    rw [if_pos hrun, if_pos hcpu]
    exact h1
  · intro i rate hi
    obtain ⟨g0, hg0, hg1⟩ := hin i rate hi
    rw [Nat.zero_add] at hg0 hg1
    exact ⟨g0, _, hg0, hg1, truncToInt_eq_truncTowardZero rate, rfl, rfl⟩
  · intro i hi
    exact hout i (Or.inr (by omega))

theorem cpu_update_exact_witness :
    ∃ s1, step (initState 4 fourPage) (.data (cpuMsg [25 / 2, 99])) = .next s1 ∧
      (∀ (i : Nat) (rate : ℚ), (cpuMsg [25 / 2, 99]).CpuStats[i]? = some rate →
        ∃ g0 g : Gauge, (initState 4 fourPage).myPage.CPUCharts[i]? = some g0 ∧
          s1.myPage.CPUCharts[i]? = some g ∧
          g.Percent = truncTowardZero rate ∧ g.Title = " CPU " ++ toString i ++ " " ∧
          g.rect = g0.rect) ∧
      (∀ i : Nat, (cpuMsg [25 / 2, 99]).CpuStats.length ≤ i →
        s1.myPage.CPUCharts[i]? = (initState 4 fourPage).myPage.CPUCharts[i]?) ∧
      s1.myPage.CPUCharts.length = (initState 4 fourPage).myPage.CPUCharts.length ∧
      s1 = { initState 4 fourPage with
        myPage := { (initState 4 fourPage).myPage with CPUCharts := s1.myPage.CPUCharts } } :=
  cpu_update_exact (initState 4 fourPage) (cpuMsg [25 / 2, 99]) rfl rfl (by decide) rfl

/-! ## The bar gap -/

theorem layoutCPU_memory (w height : Int) (l : List Nat) (s : State) :
    (layoutCPU w height l s).state.myPage.MemoryChart = s.myPage.MemoryChart := by
  induction l generalizing s with
  | nil => rfl
  | cons i rest ih =>
    unfold layoutCPU
    cases hg : s.myPage.CPUCharts[i]? with
    | none => rfl
    | some g =>
      simp only []
      exact (ih _).trans rfl

theorem updateUI_memory (s : State) (w h : Int) (hn : s.numCores ≠ 0) :
    (updateUI s w h).state.myPage.MemoryChart = (setBarGap s w).myPage.MemoryChart := by
  have hg : (layoutGauges (setBarGap (s.emit .clear) w) w
      (Int.tdiv h (s.emit .clear).numCores)).state.myPage.MemoryChart
      = (setBarGap s w).myPage.MemoryChart := by
    unfold layoutGauges
    split
    · exact layoutCPU_memory _ _ _ _
    · rfl
  unfold updateUI
  simp only []
  rw [if_neg (show ¬ (s.emit .clear).numCores = 0 from hn)]
  split
  · rename_i s3 hs3
    rw [hs3] at hg
    exact hg
  · rename_i o _
    cases o <;> exact hg

/-- C17. Bar gap keeps bars inside the panel: `updateUI` (with a positive core count) leaves
`MemoryChart.BarGap = ((w/2) - 4*BarWidth) / 4` with Go integer division and `BarWidth`
unchanged; whenever `BarWidth ≥ 0` and `w/2 ≥ 4*BarWidth` the gap is `≥ 0` and
`4*(BarWidth + BarGap) ≤ w/2 < 4*(BarWidth + BarGap) + 4`. -/
theorem bar_gap_fits (s : State) (w h : Int) :
    (s.numCores ≠ 0 →
      (updateUI s w h).state.myPage.MemoryChart.BarGap
        = Int.tdiv (Int.tdiv w 2 - 4 * s.myPage.MemoryChart.BarWidth) 4 ∧
      (updateUI s w h).state.myPage.MemoryChart.BarWidth = s.myPage.MemoryChart.BarWidth) ∧
    (setBarGap s w).myPage.MemoryChart.BarGap
      = Int.tdiv (Int.tdiv w 2 - 4 * s.myPage.MemoryChart.BarWidth) 4 ∧
    (0 ≤ s.myPage.MemoryChart.BarWidth →
      4 * s.myPage.MemoryChart.BarWidth ≤ Int.tdiv w 2 →
      0 ≤ (setBarGap s w).myPage.MemoryChart.BarGap ∧
      4 * (s.myPage.MemoryChart.BarWidth + (setBarGap s w).myPage.MemoryChart.BarGap)
        ≤ Int.tdiv w 2 ∧
      Int.tdiv w 2
        < 4 * (s.myPage.MemoryChart.BarWidth + (setBarGap s w).myPage.MemoryChart.BarGap)
          + 4) := by
  refine ⟨?_, rfl, ?_⟩
  · intro hn
    rw [updateUI_memory s w h hn]
    exact ⟨rfl, rfl⟩
  · intro _ hfit
    show 0 ≤ Int.tdiv (Int.tdiv w 2 - 4 * s.myPage.MemoryChart.BarWidth) 4 ∧
      4 * (s.myPage.MemoryChart.BarWidth
          + Int.tdiv (Int.tdiv w 2 - 4 * s.myPage.MemoryChart.BarWidth) 4) ≤ Int.tdiv w 2 ∧
      Int.tdiv w 2 < 4 * (s.myPage.MemoryChart.BarWidth
          + Int.tdiv (Int.tdiv w 2 - 4 * s.myPage.MemoryChart.BarWidth) 4) + 4
    rw [Int.tdiv_eq_ediv (show 0 ≤ Int.tdiv w 2 - 4 * s.myPage.MemoryChart.BarWidth by omega)
      (by decide)]
    omega

theorem bar_gap_fits_witness :
    ((updateUI (initState 4 fourPage) 81 40).state.myPage.MemoryChart.BarGap
        = Int.tdiv (Int.tdiv 81 2 - 4 * (initState 4 fourPage).myPage.MemoryChart.BarWidth) 4 ∧
      (updateUI (initState 4 fourPage) 81 40).state.myPage.MemoryChart.BarWidth
        = (initState 4 fourPage).myPage.MemoryChart.BarWidth) ∧
    (0 ≤ (setBarGap (initState 4 fourPage) 81).myPage.MemoryChart.BarGap ∧
      4 * ((initState 4 fourPage).myPage.MemoryChart.BarWidth
          + (setBarGap (initState 4 fourPage) 81).myPage.MemoryChart.BarGap) ≤ Int.tdiv 81 2 ∧
      Int.tdiv 81 2
        < 4 * ((initState 4 fourPage).myPage.MemoryChart.BarWidth
          + (setBarGap (initState 4 fourPage) 81).myPage.MemoryChart.BarGap) + 4) :=
  ⟨(bar_gap_fits (initState 4 fourPage) 81 40).1 (by decide),
   (bar_gap_fits (initState 4 fourPage) 81 40).2.2 (by decide) (by decide)⟩


/-! ## The clamp and the emission guard -/

/-- C18. Exact clamp rule: a `"NET"` message that emits a sample appends, per direction,
0 when the delta `d = current - previous` truncated toward zero is negative, that is when
`d ≤ -1`, and `d` itself otherwise; each direction depends on its own delta only; for an
integer-valued delta the sample is `max 0 d`. -/
theorem exact_clamp_rule (s : State) (d : DataStats) (cur : ℚ × ℚ)
    (hrun : s.run = true) (hnet : d.FieldSet = "NET")
    (hsum : sumNet d.NetStats (0, 0) = some cur) (hne : s.totalBytesRecv ≠ 0)
    (hi : s.ipData.length = 40) (ho : s.opData.length = 40) :
    ∃ s1, step s (.data d) = .next s1 ∧
      s1.ipData = s.ipData.drop 1
        ++ [if cur.1 - s.totalBytesRecv ≤ -1 then 0 else cur.1 - s.totalBytesRecv] ∧
      s1.opData = s.opData.drop 1
        ++ [if cur.2 - s.totalBytesSent ≤ -1 then 0 else cur.2 - s.totalBytesSent] ∧
      (truncToInt (cur.1 - s.totalBytesRecv) = truncTowardZero (cur.1 - s.totalBytesRecv) ∧
        (truncToInt (cur.1 - s.totalBytesRecv) < 0 ↔ cur.1 - s.totalBytesRecv ≤ -1)) ∧
      (truncToInt (cur.2 - s.totalBytesSent) = truncTowardZero (cur.2 - s.totalBytesSent) ∧
        (truncToInt (cur.2 - s.totalBytesSent) < 0 ↔ cur.2 - s.totalBytesSent ≤ -1)) ∧
      (∀ z : Int, cur.1 - s.totalBytesRecv = z →
        s1.ipData = s.ipData.drop 1 ++ [((max 0 z : Int) : ℚ)]) ∧
      (∀ z : Int, cur.2 - s.totalBytesSent = z →
        s1.opData = s.opData.drop 1 ++ [((max 0 z : Int) : ℚ)]) := by
  obtain ⟨s1, h1, _, _, _, _, hpush⟩ := handleData_net_full s d cur hrun hnet hsum hi ho
  have hp := hpush hne
  have hr : (recentBytes s cur).1 = clampNeg (cur.1 - s.totalBytesRecv) := rfl
  have ht : (recentBytes s cur).2 = clampNeg (cur.2 - s.totalBytesSent) := rfl
  rw [hr, ht] at hp
  refine ⟨s1, h1, ?_, ?_, ⟨truncToInt_eq_truncTowardZero _, truncToInt_neg_iff _⟩,
    ⟨truncToInt_eq_truncTowardZero _, truncToInt_neg_iff _⟩, ?_, ?_⟩
  · rw [hp.1, clampNeg_eq]
  · rw [hp.2, clampNeg_eq]
  · intro z hz
    rw [hp.1, hz, clampNeg_intCast]
  · intro z hz
    rw [hp.2, hz, clampNeg_intCast]

theorem exact_clamp_rule_witness :
    ∃ s1, step afterFirstNet (.data (netMsg [[7, 19 / 2]])) = .next s1 ∧
      s1.ipData = afterFirstNet.ipData.drop 1 ++ [-1 / 2] ∧
      s1.opData = afterFirstNet.opData.drop 1 ++ [0] := by
  obtain ⟨s1, h1, hip, hop, _⟩ := exact_clamp_rule afterFirstNet (netMsg [[7, 19 / 2]])
    (19 / 2, 7) rfl rfl (by simp [netMsg, sumNet]) (by simp [afterFirstNet])
    (by simp [afterFirstNet, initState]) (by simp [afterFirstNet, initState])
  refine ⟨s1, h1, ?_, ?_⟩
  · rw [hip]
    simp only [afterFirstNet]
    norm_num
  · rw [hop]
    simp only [afterFirstNet]
    norm_num

/-- C19 (counterexample). At startup, on a page whose network chart holds no data yet, the
first `"NET"` message (stored received total 0) also changes the data of the network
chart, not only the totals and the legend. -/
theorem first_net_sets_chart_data :
    (initState 1 onePage).totalBytesRecv = 0 ∧
    ∃ s1, step (initState 1 onePage) (.data (netMsg [[5, 3]])) = .next s1 ∧
      s1.ipData = (initState 1 onePage).ipData ∧
      s1.myPage.NetworkChartData ≠ (initState 1 onePage).myPage.NetworkChartData := by
  refine ⟨rfl, ?_⟩
  simp [step, handleData, updateNet, sumNet, netMsg, initState, finishNet, onePage]

/-- C19 (amended). Sample emission is keyed on the stored received total: a `"NET"` message
processed in running mode appends one sample to each history when the stored
`totalBytesRecv` is not zero, and when it is zero, whatever the stored sent total is, it
leaves both histories unchanged and updates only the totals, the legend and the data of the
network chart, which is set to the two unchanged histories. -/
theorem sample_emission_keyed_on_recv_total (s : State) (d : DataStats) (cur : ℚ × ℚ)
    (hrun : s.run = true) (hnet : d.FieldSet = "NET")
    (hsum : sumNet d.NetStats (0, 0) = some cur)
    (hi : s.ipData.length = 40) (ho : s.opData.length = 40) :
    ∃ s1, step s (.data d) = .next s1 ∧
      (s.totalBytesRecv ≠ 0 →
        s1.ipData = s.ipData.drop 1 ++ [(recentBytes s cur).1] ∧
        s1.opData = s.opData.drop 1 ++ [(recentBytes s cur).2] ∧
        sampleOf s (.data d) = some (recentBytes s cur)) ∧
      (s.totalBytesRecv = 0 →
        sampleOf s (.data d) = none ∧
        s1 = { s with
          totalBytesRecv := cur.1
          totalBytesSent := cur.2
          myPage := { s.myPage with
            NetParaText := netLegend cur.1 cur.2
            NetworkChartData := [s.ipData, s.opData] } }) := by
  have hstep : step s (.data d) = handleData s d := rfl
  by_cases h0 : s.totalBytesRecv = 0
  · refine ⟨finishNet s cur, ?_, fun h => absurd h0 h, fun _ => ⟨?_, rfl⟩⟩
    · rw [hstep, handleData_net s d cur hrun hnet hsum, if_neg (not_not.mpr h0)]
    · simp [sampleOf, h0]
  · obtain ⟨s1, h1, _, _, _, _, hpush⟩ := handleData_net_full s d cur hrun hnet hsum hi ho
    refine ⟨s1, h1, fun _ => ⟨(hpush h0).1, (hpush h0).2, ?_⟩, fun h => absurd h h0⟩
    have hsum0 : sumNet d.NetStats 0 = some cur := hsum
    simp [sampleOf, hrun, hnet, h0, hsum0]

theorem sample_emission_keyed_on_recv_total_witness :
    (∃ s1, step (initState 1 onePage) (.data (netMsg [[5, 0]])) = .next s1 ∧
      sampleOf (initState 1 onePage) (.data (netMsg [[5, 0]])) = none ∧
      s1 = { initState 1 onePage with
        totalBytesRecv := 0
        totalBytesSent := 5
        myPage := { (initState 1 onePage).myPage with
          NetParaText := netLegend 0 5
          NetworkChartData :=
            [(initState 1 onePage).ipData, (initState 1 onePage).opData] } }) ∧
    (∃ s1, step afterFirstNet (.data (netMsg [[12, 15]])) = .next s1 ∧
      s1.ipData = afterFirstNet.ipData.drop 1 ++ [(recentBytes afterFirstNet (15, 12)).1] ∧
      s1.opData = afterFirstNet.opData.drop 1 ++ [(recentBytes afterFirstNet (15, 12)).2] ∧
      sampleOf afterFirstNet (.data (netMsg [[12, 15]]))
        = some (recentBytes afterFirstNet (15, 12))) := by
  obtain ⟨s1, h1, _, hz⟩ := sample_emission_keyed_on_recv_total (initState 1 onePage)
    (netMsg [[5, 0]]) (0, 5) rfl rfl (by simp [netMsg, sumNet]) (by simp [initState])
    (by simp [initState])
  obtain ⟨s2, h2, hnz, _⟩ := sample_emission_keyed_on_recv_total afterFirstNet
    (netMsg [[12, 15]]) (15, 12) rfl rfl (by simp [netMsg, sumNet])
    (by simp [afterFirstNet, initState]) (by simp [afterFirstNet, initState])
  exact ⟨⟨s1, h1, hz rfl⟩, ⟨s2, h2, hnz (by simp [afterFirstNet])⟩⟩

/-! ## The bands and the panel together -/

/-- C20. Bands tile the left half and align with the panel: for `h ≥ 0` and `n ≥ 1` (one
gauge per core) the bands set by `updateUI` start at row 0, are contiguous (band `i` ends
where band `i + 1` starts), pairwise non-overlapping, and the last one ends at row
`n * (h/n)`, which is the bottom row `h - heightOffset` of the grid and is at most `h`;
the grid starts at row 0 as well, so both halves cover the same rows and nothing is
placed beyond the terminal height. -/
theorem bands_tile_left_half (s : State) (w h : Int) (hw : 0 ≤ w) (hh : 0 ≤ h)
    (hset : s.isCPUSet = true) (hn : 1 ≤ s.numCores)
    (hpage : s.myPage.CPUCharts.length = s.numCores) :
    ∃ s1, updateUI s w h = .next s1 ∧
      (∀ i : Nat, i < s.numCores → ∃ g : Gauge, s1.myPage.CPUCharts[i]? = some g ∧
        g.rect = bandRect w (h / s.numCores) i ∧ g.rect.y1 ≤ g.rect.y2 ∧
        0 ≤ g.rect.y1 ∧ g.rect.y2 ≤ h) ∧
      (bandRect w (h / s.numCores) 0).y1 = 0 ∧
      (∀ i : Nat, i + 1 < s.numCores →
        (bandRect w (h / s.numCores) i).y2 = (bandRect w (h / s.numCores) (i + 1)).y1) ∧
      (∀ i j : Nat, i < j → j < s.numCores →
        (bandRect w (h / s.numCores) i).y2 ≤ (bandRect w (h / s.numCores) j).y1) ∧
      (bandRect w (h / s.numCores) (s.numCores - 1)).y2 = s.numCores * (h / s.numCores) ∧
      s1.myPage.GridRect.y1 = 0 ∧
      s1.myPage.GridRect.y2 = s.numCores * (h / s.numCores) ∧
      s1.myPage.GridRect.y2 = h - (h - (h / s.numCores) * s.numCores) ∧
      s1.myPage.GridRect.y2 ≤ h := by
  obtain ⟨s1, h1, hb, hg, _⟩ := updateUI_layout s w h hw hh hset hn hpage
  have hpos : (0 : Int) < s.numCores := by exact_mod_cast hn
  have hq : 0 ≤ h / (s.numCores : Int) := Int.ediv_nonneg hh (le_of_lt hpos)
  have hle : (s.numCores : Int) * (h / s.numCores) ≤ h := Int.mul_ediv_self_le (ne_of_gt hpos)
  have hmod : h - h % (s.numCores : Int) = s.numCores * (h / s.numCores) := by
    rw [Int.emod_def]
    ring
  have hmono : ∀ a b : Nat, a ≤ b →
      (a : Int) * (h / s.numCores) ≤ (b : Int) * (h / s.numCores) := by
    intro a b hab
    exact Int.mul_le_mul_of_nonneg_right (by exact_mod_cast hab) hq
  refine ⟨s1, h1, ?_, ?_, ?_, ?_, ?_, ?_, ?_, ?_, ?_⟩
  · intro i hi
    obtain ⟨g0, _, hg1, _⟩ := hb i hi
    refine ⟨_, hg1, rfl, ?_, ?_, ?_⟩
    · show (i : Int) * (h / s.numCores) ≤ ((i : Int) + 1) * (h / s.numCores)
      have := hmono i (i + 1) (by omega)
      push_cast at this
      exact this
    · show 0 ≤ (i : Int) * (h / s.numCores)
      exact Int.mul_nonneg (Int.ofNat_nonneg i) hq
    · show ((i : Int) + 1) * (h / s.numCores) ≤ h
      have := hmono (i + 1) s.numCores (by omega)
      push_cast at this
      exact le_trans this hle
  · show ((0 : Nat) : Int) * (h / s.numCores) = 0
    simp
  · intro i _
    show ((i : Int) + 1) * (h / s.numCores) = (((i + 1 : Nat) : Int)) * (h / s.numCores)
    push_cast
    rfl
  · intro i j hij _
    show ((i : Int) + 1) * (h / s.numCores) ≤ (j : Int) * (h / s.numCores)
    have := hmono (i + 1) j (by omega)
    push_cast at this
    exact this
  · show (((s.numCores - 1 : Nat) : Int) + 1) * (h / s.numCores) = _
    have hc : ((s.numCores - 1 : Nat) : Int) + 1 = s.numCores := by omega
    rw [hc]
  · rw [hg]
    rfl
  · rw [hg]
    exact hmod
  · rw [hg]
    show h - h % (s.numCores : Int) = h - (h - h / s.numCores * s.numCores)
    rw [Int.emod_def]
    ring
  · rw [hg]
    show h - h % (s.numCores : Int) ≤ h
    have := Int.emod_nonneg h (ne_of_gt hpos)
    omega

theorem bands_tile_left_half_witness :
    ∃ s1, updateUI (initState 4 fourPage) 81 42 = .next s1 ∧
      (∀ i : Nat, i < 4 → ∃ g : Gauge, s1.myPage.CPUCharts[i]? = some g ∧
        g.rect = bandRect 81 (42 / (4 : Nat)) i ∧ g.rect.y1 ≤ g.rect.y2 ∧
        0 ≤ g.rect.y1 ∧ g.rect.y2 ≤ 42) ∧
      s1.myPage.GridRect.y1 = 0 ∧
      s1.myPage.GridRect.y2 = (4 : Nat) * (42 / (4 : Nat)) ∧
      s1.myPage.GridRect.y2 ≤ 42 := by
  obtain ⟨s1, h1, hb, _, _, _, _, hy1, hy2, _, hle⟩ :=
    bands_tile_left_half (initState 4 fourPage) 81 42 (by decide) (by decide) rfl
      (by decide) rfl
  exact ⟨s1, h1, hb, hy1, hy2, hle⟩

end Grofer
